import Mathlib

/-!
Verification development for the astral text-glyph SDF renderer.

The TypeScript sources are shallowly embedded over `ℚ`.  JavaScript `number`
arithmetic is idealized as exact rational arithmetic; the transcendental
`Math` primitives (`sqrt`, `sin`, `cos`, `tan`, `pow`, `PI`) are passed in as
an explicit record of rational functions (`JSMath`), and theorems assume only
the finitely many algebraic facts about them that the traced executions use
(e.g. `sqrt 4 = 2`).  JavaScript `Infinity` is modelled with `Option`
(`none` = infinite / absent result) at the places where the sources produce
it.  Typed-array stores model the ECMAScript `ToUint8` / `ToUint32` / int16
conversions; `Float32Array` rounding is idealized as exact.
-/

namespace Astral

/-- Record of the `Math.*` primitives used by the renderer, supplied
abstractly so the embedding stays computable over `ℚ`. -/
structure JSMath where
  sqrt : ℚ → ℚ
  sin : ℚ → ℚ
  cos : ℚ → ℚ
  tan : ℚ → ℚ
  pow : ℚ → ℚ → ℚ
  pi : ℚ

/-- `src/core/types.ts` `Vec3`. -/
structure Vec3 where
  x : ℚ
  y : ℚ
  z : ℚ
deriving DecidableEq, Repr

/-- `src/core/types.ts` `Color`. -/
structure Color where
  r : ℚ
  g : ℚ
  b : ℚ
deriving DecidableEq, Repr

/-! ## `src/core/vec3.ts` -/

/-- `vec3.ts` `add`. -/
def add (a b : Vec3) : Vec3 := ⟨a.x + b.x, a.y + b.y, a.z + b.z⟩

/-- `vec3.ts` `sub`. -/
def sub (a b : Vec3) : Vec3 := ⟨a.x - b.x, a.y - b.y, a.z - b.z⟩

/-- `vec3.ts` `mul` (scalar multiply). -/
def mul (v : Vec3) (scalar : ℚ) : Vec3 := ⟨v.x * scalar, v.y * scalar, v.z * scalar⟩

/-- `vec3.ts` `dot`. -/
def dot (a b : Vec3) : ℚ := a.x * b.x + a.y * b.y + a.z * b.z

/-- `vec3.ts` `length`: `Math.sqrt(x*x + y*y + z*z)`. -/
def vlength (m : JSMath) (v : Vec3) : ℚ := m.sqrt (v.x * v.x + v.y * v.y + v.z * v.z)

/-- `vec3.ts` `normalize`: returns the zero vector when the length is zero. -/
def vnormalize (m : JSMath) (v : Vec3) : Vec3 :=
  let len := vlength m v
  if len = 0 then ⟨0, 0, 0⟩ else ⟨v.x / len, v.y / len, v.z / len⟩

/-! ## `src/core/types.ts` scene data model -/

inductive GlyphStyle where
  | dense | light | round | angular | line | noise | block | symbolic
deriving DecidableEq, Repr

inductive NoiseKind where
  | random | perlin | wave
deriving DecidableEq, Repr

structure FlickerBehavior where
  speed : ℚ
  amplitude : ℚ
  noise : NoiseKind
deriving DecidableEq, Repr

inductive LightType where
  | directional | point | spot | area
deriving DecidableEq, Repr

structure Light where
  type : LightType
  position : Option Vec3
  direction : Option Vec3
  intensity : ℚ
  color : Color
  range : Option ℚ
  falloff : Option ℚ
  flicker : Option FlickerBehavior
deriving DecidableEq, Repr

inductive MotionKind where
  | flicker | flow | pulse | static
deriving DecidableEq, Repr

structure MotionBehavior where
  type : MotionKind
  speed : ℚ
deriving DecidableEq, Repr

structure Material where
  baseColor : Color
  brightness : ℚ
  emissive : Option ℚ
  roughness : ℚ
  reflectivity : ℚ
  transparency : Option ℚ
  glyphStyle : Option GlyphStyle
  motionBehavior : Option MotionBehavior
deriving DecidableEq, Repr

structure Transform where
  position : Vec3
  rotation : Vec3
  scale : Vec3
deriving DecidableEq, Repr

/-- `src/core/types.ts` `Geometry` (tagged union).  The `sdf` variant's
`functionName`/`params` payload is never read by the renderer core, so it is
not carried. -/
inductive Geometry where
  | sphere (radius : ℚ)
  | box (size : Vec3)
  | plane (normal : Vec3)
  | cylinder (radius height : ℚ)
  | sdf
deriving DecidableEq, Repr

structure Entity where
  id : String
  transform : Transform
  geometry : Geometry
  material : Material
  velocity : Option Vec3
  angularVelocity : Option Vec3
deriving DecidableEq, Repr

structure Camera where
  position : Vec3
  rotation : Vec3
  fov : ℚ
  near : ℚ
  far : ℚ
deriving DecidableEq, Repr

structure Environment where
  ambientLight : ℚ
  backgroundColor : Color
  fogDensity : Option ℚ
  fogColor : Option Color
  globalIllumination : Option ℚ
deriving DecidableEq, Repr

structure Scene where
  time : ℚ
  camera : Camera
  environment : Environment
  lights : List Light
  entities : List Entity
deriving DecidableEq, Repr

/-! ## `src/renderer/sdf.ts` -/

/-- `sdf.ts` `sdSphere`: `length(p) - radius`. -/
def sdSphere (m : JSMath) (p : Vec3) (radius : ℚ) : ℚ := vlength m p - radius

/-- `sdf.ts` `sdBox`. -/
def sdBox (m : JSMath) (p : Vec3) (size : Vec3) : ℚ :=
  let d : Vec3 := ⟨|p.x| - size.x / 2, |p.y| - size.y / 2, |p.z| - size.z / 2⟩
  let outside := vlength m ⟨max d.x 0, max d.y 0, max d.z 0⟩
  let inside := min (max d.x (max d.y d.z)) 0
  outside + inside

/-- `sdf.ts` `sdPlane`: `dot(p, normalize(normal))`. -/
def sdPlane (m : JSMath) (p : Vec3) (normal : Vec3) : ℚ := dot p (vnormalize m normal)

/-- `sdf.ts` `sdCylinder`. -/
def sdCylinder (m : JSMath) (p : Vec3) (radius height : ℚ) : ℚ :=
  let d2 := m.sqrt (p.x * p.x + p.z * p.z) - radius
  let d1 := |p.y| - height / 2
  let outside := vlength m ⟨max d2 0, max d1 0, 0⟩
  let inside := min (max d2 d1) 0
  outside + inside

/-- `sdf.ts` `evaluateSDF`.  The default branch returns JavaScript
`Infinity`, modelled as `none`. -/
def evaluateSDF (m : JSMath) (p : Vec3) (geometry : Geometry) : Option ℚ :=
  match geometry with
  | .sphere radius => some (sdSphere m p radius)
  | .box size => some (sdBox m p size)
  | .plane normal => some (sdPlane m p normal)
  | .cylinder radius height => some (sdCylinder m p radius height)
  | .sdf => none

/-! ## `src/renderer/World.ts` -/

/-- `World.ts` `worldToLocal`: translate, inverse Euler rotation
(Z then X then Y with negated angles), then component-wise divide by scale.
(JavaScript division by a zero scale produces a non-finite value — the open
gap flagged in the design notes; `ℚ` division by zero yields `0` here, a
regime no claim exercises.) -/
def worldToLocal (m : JSMath) (point : Vec3) (transform : Transform) : Vec3 :=
  let translated := sub point transform.position
  let rotZ : Vec3 :=
    ⟨translated.x * m.cos (-transform.rotation.z) - translated.y * m.sin (-transform.rotation.z),
     translated.x * m.sin (-transform.rotation.z) + translated.y * m.cos (-transform.rotation.z),
     translated.z⟩
  let rotX : Vec3 :=
    ⟨rotZ.x,
     rotZ.y * m.cos (-transform.rotation.x) - rotZ.z * m.sin (-transform.rotation.x),
     rotZ.y * m.sin (-transform.rotation.x) + rotZ.z * m.cos (-transform.rotation.x)⟩
  let rotY : Vec3 :=
    ⟨rotX.x * m.cos (-transform.rotation.y) + rotX.z * m.sin (-transform.rotation.y),
     rotX.y,
     -rotX.x * m.sin (-transform.rotation.y) + rotX.z * m.cos (-transform.rotation.y)⟩
  ⟨rotY.x / transform.scale.x, rotY.y / transform.scale.y, rotY.z / transform.scale.z⟩

/-! ## `src/renderer/SpatialGrid.ts` -/

structure AABB where
  min : Vec3
  max : Vec3
deriving DecidableEq, Repr

/-- `SpatialGrid.ts` `computeAABB`. -/
def computeAABB (entity : Entity) : AABB :=
  let pos := entity.transform.position
  let scale := entity.transform.scale
  match entity.geometry with
  | .sphere radius =>
      let r := radius * max scale.x (max scale.y scale.z)
      ⟨sub pos ⟨r, r, r⟩, add pos ⟨r, r, r⟩⟩
  | .box size =>
      let half : Vec3 := ⟨size.x / 2 * scale.x, size.y / 2 * scale.y, size.z / 2 * scale.z⟩
      ⟨sub pos half, add pos half⟩
  | .cylinder radius height =>
      let r := radius * max scale.x scale.z
      let h := height / 2 * scale.y
      ⟨sub pos ⟨r, h, r⟩, add pos ⟨r, h, r⟩⟩
  | _ => ⟨⟨-1000000000, -1000000000, -1000000000⟩, ⟨1000000000, 1000000000, 1000000000⟩⟩

/-- `SpatialGrid.ts` `hashCell`: 32-bit multiplies, XOR of the int32 bit
patterns, reinterpreted unsigned by `>>> 0`.  The bit pattern of the int32
coercion of `z` is `z mod 2^32`. -/
def hashCell (cx cy cz : ℤ) : ℕ :=
  Nat.xor (Nat.xor ((cx * 73856093).emod 4294967296).toNat
                   ((cy * 19349663).emod 4294967296).toNat)
          ((cz * 83492791).emod 4294967296).toNat

/-- `SpatialGrid.ts` `INFINITE_TYPES` membership: planes and generic SDFs. -/
def isInfiniteType : Geometry → Bool
  | .plane _ => true
  | .sdf => true
  | _ => false

/-- State of a `SpatialGrid`: the `Map` of cell lists is modelled as a total
function from hash key to list (`cells.get(h) ?? []` yields `[]` for absent
keys), plus the always-evaluated infinite-entity indices. -/
structure SpatialGrid where
  cellSize : ℚ
  cells : ℕ → List ℕ
  globalIndices : List ℕ
  entities : List Entity

/-- Body of the innermost loop of `rebuild`: `if (!arr.includes(i)) arr.push(i)`
on the bucket for hash `h`. -/
def addToCell (cells : ℕ → List ℕ) (h : ℕ) (i : ℕ) : ℕ → List ℕ :=
  fun k => if k = h then (if i ∈ cells h then cells h else cells h ++ [i]) else cells k

/-- Integer range `[lo, hi]` enumerated in increasing order (empty when
`hi < lo`), as the `for (c = lo; c <= hi; c++)` loops produce. -/
def cellRange (lo hi : ℤ) : List ℤ := (List.range (hi - lo + 1).toNat).map (fun k => lo + k)

/-- The hash keys of every grid cell the AABB overlaps, in the source's
x-outer / y-middle / z-inner loop order. -/
def entityCellHashes (cellSize : ℚ) (aabb : AABB) : List ℕ :=
  (cellRange ⌊aabb.min.x / cellSize⌋ ⌊aabb.max.x / cellSize⌋).flatMap fun cx =>
    (cellRange ⌊aabb.min.y / cellSize⌋ ⌊aabb.max.y / cellSize⌋).flatMap fun cy =>
      (cellRange ⌊aabb.min.z / cellSize⌋ ⌊aabb.max.z / cellSize⌋).map fun cz =>
        hashCell cx cy cz

/-- One iteration of `rebuild`'s entity loop, at entity index `i`. -/
def rebuildStep (cellSize : ℚ) (i : ℕ) (entity : Entity)
    (acc : (ℕ → List ℕ) × List ℕ) : (ℕ → List ℕ) × List ℕ :=
  if isInfiniteType entity.geometry then (acc.1, acc.2 ++ [i])
  else ((entityCellHashes cellSize (computeAABB entity)).foldl
          (fun cs h => addToCell cs h i) acc.1, acc.2)

/-- `rebuild`'s entity loop, counting indices from `i0`. -/
def rebuildAux (cellSize : ℚ) : List Entity → ℕ → (ℕ → List ℕ) × List ℕ → (ℕ → List ℕ) × List ℕ
  | [], _, acc => acc
  | e :: rest, i, acc => rebuildAux cellSize rest (i + 1) (rebuildStep cellSize i e acc)

/-- `SpatialGrid.ts` constructor + `rebuild()` from scratch. -/
def SpatialGrid.build (entities : List Entity) (cellSize : ℚ) : SpatialGrid :=
  let acc := rebuildAux cellSize entities 0 (fun _ => [], [])
  ⟨cellSize, acc.1, acc.2, entities⟩

/-- `SpatialGrid.ts` `getCandidates`: always-evaluated list concatenated with
the single cell containing the point. -/
def SpatialGrid.getCandidates (g : SpatialGrid) (point : Vec3) : List ℕ :=
  let cs := g.cellSize
  g.globalIndices ++ g.cells (hashCell ⌊point.x / cs⌋ ⌊point.y / cs⌋ ⌊point.z / cs⌋)

/-! ## `src/renderer/World.ts` `World` -/

/-- A finite `World.sample` result.  The source initializes
`closestDist = Infinity` and returns it with the sentinel empty material and
`entityIndex = -1` when no candidate wins; that sentinel is modelled as
`none` at the call sites. -/
structure SampleHit where
  distance : ℚ
  material : Material
  entityId : String
  entityIndex : ℤ
deriving DecidableEq, Repr

structure World where
  entities : List Entity
  grid : SpatialGrid

/-- `World` constructor: keeps the entity list and builds the grid with the
default cell size 2.0. -/
def World.build (entities : List Entity) : World :=
  ⟨entities, SpatialGrid.build entities 2⟩

/-- `World.ts` `sample`.  `none` models the `Infinity` sentinel result.
A candidate whose SDF evaluates to `Infinity` (`none`) never beats
`closestDist` (for the nonnegative scales every claim uses), so it leaves the
accumulator unchanged.  Out-of-range candidate indices do not occur (the grid
stores only valid indices). -/
def World.sample (m : JSMath) (w : World) (point : Vec3) : Option SampleHit :=
  let candidates := w.grid.getCandidates point
  candidates.foldl
    (fun acc i =>
      match w.entities.get? i with
      | none => acc
      | some entity =>
        let localPoint := worldToLocal m point entity.transform
        match evaluateSDF m localPoint entity.geometry with
        | none => acc
        | some d0 =>
          let scaleFactor := min entity.transform.scale.x
            (min entity.transform.scale.y entity.transform.scale.z)
          let dist := d0 * scaleFactor
          match acc with
          | none => some ⟨dist, entity.material, entity.id, (i : ℤ)⟩
          | some best =>
            if dist < best.distance then some ⟨dist, entity.material, entity.id, (i : ℤ)⟩
            else acc)
    none

/-! ## `src/renderer/Raymarch.ts` -/

structure Ray where
  origin : Vec3
  direction : Vec3
deriving DecidableEq, Repr

inductive RaymarchResult where
  | hit (position normal : Vec3) (material : Material) (distance : ℚ) (entityIndex : ℤ)
  | miss
deriving DecidableEq, Repr

/-- Subtraction of two sampled distances for the central differences in
`computeNormal`.  When a neighbouring sample has no finite distance the
JavaScript arithmetic is non-finite; that regime (never reached by any claim)
is modelled as `0`. -/
def sampleDistSub (a b : Option SampleHit) : ℚ :=
  match a, b with
  | some sa, some sb => sa.distance - sb.distance
  | _, _ => 0

/-- `Raymarch.ts` `computeNormal`: central differences with epsilon `0.001`,
then `normalize`. -/
def computeNormal (m : JSMath) (w : World) (pos : Vec3) : Vec3 :=
  let eps : ℚ := 1 / 1000
  let nx := sampleDistSub (w.sample m ⟨pos.x + eps, pos.y, pos.z⟩)
                          (w.sample m ⟨pos.x - eps, pos.y, pos.z⟩)
  let ny := sampleDistSub (w.sample m ⟨pos.x, pos.y + eps, pos.z⟩)
                          (w.sample m ⟨pos.x, pos.y - eps, pos.z⟩)
  let nz := sampleDistSub (w.sample m ⟨pos.x, pos.y, pos.z + eps⟩)
                          (w.sample m ⟨pos.x, pos.y, pos.z - eps⟩)
  vnormalize m ⟨nx, ny, nz⟩

/-- Loop body of `Raymarch.ts` `raymarch`, with the remaining step count as
fuel.  A sample with no finite distance (`none`, JavaScript `Infinity`) sets
`t` to `Infinity`, which exceeds `MAX_DISTANCE`, so the loop breaks to a
miss.  `HIT_THRESHOLD = 0.01`, `MAX_DISTANCE = 100`. -/
def raymarchLoop (m : JSMath) (w : World) (ray : Ray) : ℕ → ℚ → RaymarchResult
  | 0, _ => .miss
  | steps + 1, t =>
    let pos := add ray.origin (mul ray.direction t)
    match w.sample m pos with
    | none => .miss
    | some s =>
      if s.distance < 1 / 100 then
        .hit pos (computeNormal m w pos) s.material t s.entityIndex
      else
        let t' := t + s.distance
        if t' > 100 then .miss else raymarchLoop m w ray steps t'

/-- `Raymarch.ts` `raymarch` with caller-supplied `maxSteps`
(`DEFAULT_MAX_STEPS = 64`). -/
def raymarch (m : JSMath) (ray : Ray) (w : World) (maxSteps : ℕ) : RaymarchResult :=
  raymarchLoop m w ray maxSteps 0

/-! ## `src/glyph/GlyphDB.ts` -/

/-- A glyph record.  `char` holds the code point of the display character
(the sources only ever consume it through `char.codePointAt(0)`). -/
structure GlyphRecord where
  codePoint : ℚ
  char : ℚ
  coverage : ℚ
  roundness : ℚ
  complexity : ℚ
  symmetryH : ℚ
  symmetryV : ℚ
  connectedComponents : ℚ
  aspectRatio : ℚ
  strokeWidthMedian : ℚ
  strokeWidthVariance : ℚ
  endpointCount : ℚ
  junctionCount : ℚ
  eulerNumber : ℚ
  normalizedCoverage : ℚ
  normalizedComplexity : ℚ
  normalizedConnectedComponents : ℚ
deriving DecidableEq, Repr

structure GlyphQueryParams where
  targetCoverage : ℚ
  targetRoundness : Option ℚ
  targetComplexity : Option ℚ
  glyphStyle : Option GlyphStyle
deriving DecidableEq, Repr

/-- `GlyphDB.ts` `normalize`: min-max normalization of a feature vector.
`Math.min(...values)` / `Math.max(...values)` on an empty argument list give
`Infinity` / `-Infinity`, so the empty list maps to the empty list either
way. -/
def normalize (values : List ℚ) : List ℚ :=
  match values.min?, values.max? with
  | some mn, some mx =>
      if mx - mn = 0 then values.map (fun _ => 0)
      else values.map (fun v => (v - mn) / (mx - mn))
  | _, _ => []

/-- The in-memory state of a `GlyphDB`: the parsed, normalized records,
sorted ascending by `normalizedCoverage` at load time. -/
structure GlyphDB where
  glyphs : List GlyphRecord
deriving DecidableEq, Repr

/-- `normalizedCoverage` of `glyphs[i]` (all accesses stay in bounds). -/
def covAt (gs : List GlyphRecord) (i : ℕ) : ℚ :=
  ((gs.get? i).map GlyphRecord.normalizedCoverage).getD 0

/-- The `while (left < right)` binary search of `queryBest`, with
`mid = (left + right) >> 1`. -/
def bsearchLo (gs : List GlyphRecord) (lo : ℚ) (left right : ℕ) : ℕ :=
  if _h : left < right then
    if covAt gs ((left + right) / 2) < lo then bsearchLo gs lo ((left + right) / 2 + 1) right
    else bsearchLo gs lo left ((left + right) / 2)
  else left
termination_by right - left
decreasing_by
  · omega
  · omega

/-- The `while (endIdx < length && coverage <= hi) endIdx++` scan of
`queryBest`. -/
def scanEnd (gs : List GlyphRecord) (hi : ℚ) (i : ℕ) : ℕ :=
  if _h : i < gs.length ∧ covAt gs i ≤ hi then scanEnd gs hi (i + 1) else i
termination_by gs.length - i
decreasing_by omega

/-- The `switch (glyphStyle)` style bias of `queryBest` (weight 1.5). -/
def styleBias (g : GlyphRecord) : GlyphStyle → ℚ
  | .dense => 1.5 * (1 - g.normalizedCoverage)
  | .light => 1.5 * g.normalizedCoverage
  | .round => 1.5 * (1 - g.roundness)
  | .angular => 1.5 * g.roundness
  | .line => 1.5 * g.normalizedConnectedComponents
  | .noise => 1.5 * (1 - g.normalizedComplexity)
  | .block => 1.5 * (1 - g.symmetryH)
  | .symbolic => 0

/-- `score += 4.0 * Math.abs(glyph.normalizedCoverage - targetCoverage)`. -/
def coverageTerm (p : GlyphQueryParams) (g : GlyphRecord) : ℚ :=
  4.0 * |g.normalizedCoverage - p.targetCoverage|

/-- The roundness term (weight 1.0), added only when `targetRoundness` is
given. -/
def roundnessTerm (p : GlyphQueryParams) (g : GlyphRecord) : ℚ :=
  match p.targetRoundness with
  | some tr => 1.0 * |g.roundness - tr|
  | none => 0

/-- The complexity term (weight 1.0), added only when `targetComplexity` is
given. -/
def complexityTerm (p : GlyphQueryParams) (g : GlyphRecord) : ℚ :=
  match p.targetComplexity with
  | some tc => 1.0 * |g.normalizedComplexity - tc|
  | none => 0

/-- The style-bias term, added only when `glyphStyle` is given. -/
def styleTerm (p : GlyphQueryParams) (g : GlyphRecord) : ℚ :=
  match p.glyphStyle with
  | some s => styleBias g s
  | none => 0

/-- The total candidate score accumulated by `queryBest`'s loop. -/
def scoreGlyph (p : GlyphQueryParams) (g : GlyphRecord) : ℚ :=
  coverageTerm p g + roundnessTerm p g + complexityTerm p g + styleTerm p g

/-- The minimum-score scan of `queryBest`: `bestScore` starts at `Infinity`
(`none`), `best` at `candidates[0]`, and only a strictly smaller score
replaces the incumbent (ties keep the earliest candidate). -/
def pickBestAux (p : GlyphQueryParams) :
    List GlyphRecord → GlyphRecord → Option ℚ → GlyphRecord
  | [], best, _ => best
  | g :: rest, best, bestScore =>
    let score := scoreGlyph p g
    match bestScore with
    | none => pickBestAux p rest g (some score)
    | some bs =>
      if score < bs then pickBestAux p rest g (some score)
      else pickBestAux p rest best (some bs)

def pickBest (p : GlyphQueryParams) : List GlyphRecord → Option GlyphRecord
  | [] => none
  | c :: cs => some (pickBestAux p (c :: cs) c none)

/-- `GlyphDB.ts` `queryBest`.  On an empty database the JavaScript code
dereferences `undefined` and throws; that is modelled as `none`. -/
def queryBest (db : GlyphDB) (p : GlyphQueryParams) : Option GlyphRecord :=
  let gs := db.glyphs
  if gs.length = 0 then none
  else
    let lo := p.targetCoverage - 1 / 10
    let hi := p.targetCoverage + 1 / 10
    let startIdx := bsearchLo gs lo 0 (gs.length - 1)
    let endIdx := scanEnd gs hi startIdx
    let candidates :=
      if startIdx < endIdx then (gs.drop startIdx).take (endIdx - startIdx)
      else
        match gs.get? (min (max startIdx 0) (gs.length - 1)) with
        | some g => [g]
        | none => []
    pickBest p candidates

/-! ## `src/glyph/GlyphCache.ts` -/

/-- `GlyphCache.ts` `styleToIndex` over the `STYLE_INDEX` table
(`undefined` maps to 0). -/
def styleToIndex : Option GlyphStyle → ℤ
  | none => 0
  | some .dense => 1
  | some .light => 2
  | some .round => 3
  | some .angular => 4
  | some .line => 5
  | some .noise => 6
  | some .block => 7
  | some .symbolic => 8

/-- `GlyphCache.ts` `buildKey`: quantize each continuous input
(missing roundness/complexity default to 0.5) and combine with positional
weights 1, 32, 256, 2048. -/
def buildKey (p : GlyphQueryParams) : ℤ :=
  let bb := min 31 ⌊p.targetCoverage * 31⌋
  let rb := min 7 ⌊(p.targetRoundness.getD (1 / 2)) * 7⌋
  let cb := min 7 ⌊(p.targetComplexity.getD (1 / 2)) * 7⌋
  let si := styleToIndex p.glyphStyle
  bb + rb * 32 + cb * 256 + si * 2048

/-- State of a `GlyphCache`: the flat slot array (slots `0..18431`) is
modelled as a total function from key to optional record (`null` = `none`);
only `select` reads it, and it consults the function exclusively at in-range
keys (an out-of-range JavaScript read gives `undefined`, handled in
`select`). -/
structure GlyphCacheState where
  db : GlyphDB
  cache : ℤ → Option GlyphRecord
  hits : ℕ
  misses : ℕ

/-- `GlyphCache` constructor: empty table, zero counters. -/
def GlyphCache.init (db : GlyphDB) : GlyphCacheState :=
  ⟨db, fun _ => none, 0, 0⟩

/-- `GlyphCache.ts` `select`.  The backing array has exactly the slots
`0 ≤ key < 18432` (`CACHE_SIZE`), filled with `null` (`none`); reading any
other index yields JavaScript `undefined`.  The guard in the code is
`cached !== null`, which is true both for a stored record and for
`undefined`, so an out-of-range key takes the hit branch and returns
`undefined` (modelled as `none`) without consulting the database.  Only an
in-range `null` slot delegates to `queryBest`, stores and returns the
result.  (On an empty database `queryBest` throws in JavaScript after
`misses` was already incremented; the `none` arm mirrors that counter state
without modelling the exception.) -/
def GlyphCache.select (p : GlyphQueryParams) (s : GlyphCacheState) :
    Option GlyphRecord × GlyphCacheState :=
  let key := buildKey p
  if 0 ≤ key ∧ key < 18432 then
    match s.cache key with
    | some cached => (some cached, { s with hits := s.hits + 1 })
    | none =>
      match queryBest s.db p with
      | some result =>
          (some result,
           { s with misses := s.misses + 1,
                    cache := fun k => if k = key then some result else s.cache k })
      | none => (none, { s with misses := s.misses + 1 })
  else
    (none, { s with hits := s.hits + 1 })

/-- `Object.entries(STYLE_INDEX).find(([, v]) => v === si)?.[0]` in
`warmup`: index 0 (and anything past 8) has no named style. -/
def styleOfIndex : ℕ → Option GlyphStyle
  | 1 => some .dense
  | 2 => some .light
  | 3 => some .round
  | 4 => some .angular
  | 5 => some .line
  | 6 => some .noise
  | 7 => some .block
  | 8 => some .symbolic
  | _ => none

/-- The parameter sequence enumerated by `warmup()`'s four nested loops
(style outermost, then coverage, roundness, complexity). -/
def warmupParams : List GlyphQueryParams :=
  (List.range 9).flatMap fun (si : ℕ) =>
    (List.range 32).flatMap fun (bb : ℕ) =>
      (List.range 8).flatMap fun (rb : ℕ) =>
        (List.range 8).map fun (cb : ℕ) =>
          ⟨(bb : ℚ) / 31, some ((rb : ℚ) / 7), some ((cb : ℚ) / 7), styleOfIndex si⟩

/-- `GlyphCache.ts` `warmup()`: select every key once, then reset the
hit/miss counters. -/
def GlyphCache.warmup (s : GlyphCacheState) : GlyphCacheState :=
  let s' := warmupParams.foldl (fun st p => (GlyphCache.select p st).2) s
  { s' with hits := 0, misses := 0 }

/-! ## `src/renderer/AdaptiveQuality.ts` -/

/-- `AdaptiveQuality.adjust`, as a pure function of the target frame time,
the last frame time, and the current scale (`minScale = 0.5`,
`maxScale = 1.0`). -/
def AdaptiveQuality.adjust (targetFrameTime lastFrameTime currentScale : ℚ) : ℚ :=
  if lastFrameTime > targetFrameTime * 1.2 then max 0.5 (currentScale - 0.05)
  else if lastFrameTime < targetFrameTime * 0.8 then min 1.0 (currentScale + 0.02)
  else currentScale

/-- The scale after `n` successive `adjust` calls fed by the frame-time
sequence `times`. -/
def adjustSeq (targetFrameTime : ℚ) (times : ℕ → ℚ) (s0 : ℚ) : ℕ → ℚ
  | 0 => s0
  | n + 1 => AdaptiveQuality.adjust targetFrameTime (times n) (adjustSeq targetFrameTime times s0 n)

/-! ## `src/renderer/FrameBuffer.ts` -/

/-- JavaScript number-to-integer truncation (toward zero). -/
def jsTrunc (q : ℚ) : ℤ := if 0 ≤ q then ⌊q⌋ else -⌊-q⌋

/-- ECMAScript `ToUint8` as applied by a `Uint8Array` store. -/
def toUint8 (q : ℚ) : ℚ := ((jsTrunc q).emod 256 : ℤ)

/-- ECMAScript `ToUint32` as applied by a `Uint32Array` store. -/
def toUint32 (q : ℚ) : ℚ := ((jsTrunc q).emod 4294967296 : ℤ)

/-- Pointwise update of a modelled typed array. -/
def updFn {α : Type} (f : ℕ → α) (i : ℕ) (v : α) : ℕ → α :=
  fun k => if k = i then v else f k

/-- `FrameBuffer`, structure-of-arrays; each backing typed array is a total
function from linear index.  `Float32Array` rounding of `brightness` is
idealized as exact. -/
structure FrameBuffer where
  width : ℕ
  height : ℕ
  chars : ℕ → ℚ
  colorR : ℕ → ℚ
  colorG : ℕ → ℚ
  colorB : ℕ → ℚ
  brightness : ℕ → ℚ
  dirty : ℕ → Bool

/-- `FrameBuffer.clear()`: space character, black, zero brightness, all
dirty. -/
def FrameBuffer.clear (fb : FrameBuffer) : FrameBuffer :=
  { fb with chars := fun _ => 0x20, colorR := fun _ => 0, colorG := fun _ => 0,
            colorB := fun _ => 0, brightness := fun _ => 0, dirty := fun _ => true }

/-- `FrameBuffer` constructor: allocate and `clear()`. -/
def FrameBuffer.init (width height : ℕ) : FrameBuffer :=
  FrameBuffer.clear ⟨width, height, fun _ => 0, fun _ => 0, fun _ => 0, fun _ => 0,
                     fun _ => 0, fun _ => false⟩

/-- `FrameBuffer.set`: store each of the five values only when it differs
from the stored one, and mark the cell dirty exactly when some value
changed. -/
def FrameBuffer.set (fb : FrameBuffer) (x y : ℕ) (char r g b brightness : ℚ) : FrameBuffer :=
  let idx := y * fb.width + x
  { fb with
    chars := if fb.chars idx ≠ char then updFn fb.chars idx (toUint32 char) else fb.chars,
    colorR := if fb.colorR idx ≠ r then updFn fb.colorR idx (toUint8 r) else fb.colorR,
    colorG := if fb.colorG idx ≠ g then updFn fb.colorG idx (toUint8 g) else fb.colorG,
    colorB := if fb.colorB idx ≠ b then updFn fb.colorB idx (toUint8 b) else fb.colorB,
    brightness := if fb.brightness idx ≠ brightness then updFn fb.brightness idx brightness
                  else fb.brightness,
    dirty := if fb.chars idx ≠ char ∨ fb.colorR idx ≠ r ∨ fb.colorG idx ≠ g ∨
                fb.colorB idx ≠ b ∨ fb.brightness idx ≠ brightness
             then updFn fb.dirty idx true else fb.dirty }

/-! ## `src/renderer/TemporalCache.ts` -/

/-- Int16Array store conversion. -/
def toInt16 (e : ℤ) : ℤ := (e + 32768).emod 65536 - 32768

/-- `TemporalCache`, per-pixel arrays as total functions from linear index.
`Float32Array` rounding of depth/position/normal components is idealized as
exact. -/
structure TemporalCache where
  width : ℕ
  height : ℕ
  depth : ℕ → ℚ
  entityIndex : ℕ → ℤ
  valid : ℕ → Bool
  hitPosX : ℕ → ℚ
  hitPosY : ℕ → ℚ
  hitPosZ : ℕ → ℚ
  normalX : ℕ → ℚ
  normalY : ℕ → ℚ
  normalZ : ℕ → ℚ
  prevCameraPos : Vec3
  prevCameraRot : Vec3

/-- `TemporalCache` constructor: entity indices filled with -1, everything
else zero / invalid. -/
def TemporalCache.init (width height : ℕ) : TemporalCache :=
  ⟨width, height, fun _ => 0, fun _ => -1, fun _ => false, fun _ => 0, fun _ => 0,
   fun _ => 0, fun _ => 0, fun _ => 0, fun _ => 0, ⟨0, 0, 0⟩, ⟨0, 0, 0⟩⟩

/-- `TemporalCache.store`. -/
def TemporalCache.store (tc : TemporalCache) (x y : ℕ) (depth : ℚ) (entityIdx : ℤ)
    (hitPos normal : Vec3) : TemporalCache :=
  let idx := y * tc.width + x
  { tc with
    depth := updFn tc.depth idx depth,
    entityIndex := updFn tc.entityIndex idx (toInt16 entityIdx),
    hitPosX := updFn tc.hitPosX idx hitPos.x,
    hitPosY := updFn tc.hitPosY idx hitPos.y,
    hitPosZ := updFn tc.hitPosZ idx hitPos.z,
    normalX := updFn tc.normalX idx normal.x,
    normalY := updFn tc.normalY idx normal.y,
    normalZ := updFn tc.normalZ idx normal.z,
    valid := updFn tc.valid idx true }

/-- `TemporalCache.storeMiss`. -/
def TemporalCache.storeMiss (tc : TemporalCache) (x y : ℕ) : TemporalCache :=
  let idx := y * tc.width + x
  { tc with
    entityIndex := updFn tc.entityIndex idx (-1),
    valid := updFn tc.valid idx true }

def TemporalCache.isValid (tc : TemporalCache) (x y : ℕ) : Bool :=
  tc.valid (y * tc.width + x)

def TemporalCache.getHitPos (tc : TemporalCache) (x y : ℕ) : Vec3 :=
  let idx := y * tc.width + x
  ⟨tc.hitPosX idx, tc.hitPosY idx, tc.hitPosZ idx⟩

def TemporalCache.getNormal (tc : TemporalCache) (x y : ℕ) : Vec3 :=
  let idx := y * tc.width + x
  ⟨tc.normalX idx, tc.normalY idx, tc.normalZ idx⟩

def TemporalCache.getEntityIndex (tc : TemporalCache) (x y : ℕ) : ℤ :=
  tc.entityIndex (y * tc.width + x)

/-- `TemporalCache.cameraChanged`: any pose component moved by more than the
fixed threshold 0.001. -/
def TemporalCache.cameraChanged (tc : TemporalCache) (camPos camRot : Vec3) : Bool :=
  decide (|camPos.x - tc.prevCameraPos.x| > 1 / 1000) ||
  decide (|camPos.y - tc.prevCameraPos.y| > 1 / 1000) ||
  decide (|camPos.z - tc.prevCameraPos.z| > 1 / 1000) ||
  decide (|camRot.x - tc.prevCameraRot.x| > 1 / 1000) ||
  decide (|camRot.y - tc.prevCameraRot.y| > 1 / 1000) ||
  decide (|camRot.z - tc.prevCameraRot.z| > 1 / 1000)

/-- `TemporalCache.updateCamera` (stores value copies). -/
def TemporalCache.updateCamera (tc : TemporalCache) (camPos camRot : Vec3) : TemporalCache :=
  { tc with prevCameraPos := camPos, prevCameraRot := camRot }

/-! ## `src/renderer/Lighting.ts` -/

structure LightingResult where
  brightness : ℚ
  r : ℤ
  g : ℤ
  b : ℤ
deriving DecidableEq, Repr

/-- `Lighting.ts` local `clamp` on rationals. -/
def clampQ (v lo hi : ℚ) : ℚ := max lo (min hi v)

/-- `clamp` applied to an already-floored integer channel. -/
def clampZ (v lo hi : ℤ) : ℤ := max lo (min hi v)

/-- One light's scalar contribution inside `computeLighting`'s loop.
`none` models the `continue` statements (missing position/direction or a
zero-distance light), which skip the color accumulation entirely. -/
def lightContribution (m : JSMath) (hitPos normal : Vec3) (light : Light) : Option ℚ :=
  match light.type with
  | .point =>
    match light.position with
    | none => none
    | some lp =>
      let toLight := sub lp hitPos
      let dist := vlength m toLight
      if dist = 0 then none
      else
        let dir := vnormalize m toLight
        let ndotl := max 0 (dot normal dir)
        let attenuation :=
          match light.falloff with
          | some f => light.intensity / m.pow dist f
          | none =>
            let att := light.intensity / (dist * dist)
            match light.range with
            | some rg => if dist > rg then 0 else att * max 0 (1 - (dist / rg) ^ 2)
            | none => att
        some (ndotl * attenuation)
  | .directional =>
    match light.direction with
    | none => none
    | some d =>
      let dir := vnormalize m ⟨-d.x, -d.y, -d.z⟩
      some (max 0 (dot normal dir) * light.intensity)
  | .spot =>
    match light.position, light.direction with
    | some lp, some ld =>
      let toLight := sub lp hitPos
      let dist := vlength m toLight
      if dist = 0 then none
      else
        let dir := vnormalize m toLight
        let ndotl := max 0 (dot normal dir)
        let spotDir := vnormalize m ld
        let spotAngle := dot ⟨-dir.x, -dir.y, -dir.z⟩ spotDir
        if spotAngle < m.cos (30 * m.pi / 180) then some 0
        else some (ndotl * light.intensity / (dist * dist))
    | _, _ => none
  | .area => some 0

/-- `Lighting.ts` `computeLighting`. -/
def computeLighting (m : JSMath) (hitPos normal : Vec3) (material : Material)
    (scene : Scene) : LightingResult :=
  let totals := scene.lights.foldl
    (fun (acc : ℚ × ℚ × ℚ) light =>
      match lightContribution m hitPos normal light with
      | none => acc
      | some contribution =>
        (acc.1 + contribution * (light.color.r / 255),
         acc.2.1 + contribution * (light.color.g / 255),
         acc.2.2 + contribution * (light.color.b / 255)))
    (0, 0, 0)
  let withEmissive :=
    match material.emissive with
    | some e => if e > 0 then (totals.1 + e, totals.2.1 + e, totals.2.2 + e) else totals
    | none => totals
  let totalR := withEmissive.1 + scene.environment.ambientLight
  let totalG := withEmissive.2.1 + scene.environment.ambientLight
  let totalB := withEmissive.2.2 + scene.environment.ambientLight
  { brightness := clampQ ((totalR + totalG + totalB) / 3) 0 1,
    r := clampZ ⌊totalR * material.baseColor.r⌋ 0 255,
    g := clampZ ⌊totalG * material.baseColor.g⌋ 0 255,
    b := clampZ ⌊totalB * material.baseColor.b⌋ 0 255 }

/-! ## `src/renderer/Camera.ts` -/

/-- `Camera.ts` `createRay` (`CHAR_ASPECT_RATIO = 0.5` is inlined into the
effective aspect computation). -/
def createRay (m : JSMath) (cam : Camera) (x y screenWidth screenHeight : ℕ) : Ray :=
  let fovRad := cam.fov * m.pi / 180
  let tanHalfFov := m.tan (fovRad / 2)
  let aspect := ((screenWidth : ℚ) / (screenHeight : ℚ)) * 0.5
  let ndcX := (2 * ((x : ℚ) + 0.5) / (screenWidth : ℚ) - 1) * aspect * tanHalfFov
  let ndcY := (1 - 2 * ((y : ℚ) + 0.5) / (screenHeight : ℚ)) * tanHalfFov
  let cp := m.cos cam.rotation.x
  let sp := m.sin cam.rotation.x
  let cyw := m.cos cam.rotation.y
  let syw := m.sin cam.rotation.y
  let dirWorld := vnormalize m
    ⟨ndcX * cyw + ndcY * (syw * sp) + (-syw * cp),
     ndcX * 0 + ndcY * cp + sp,
     ndcX * (-syw) + ndcY * (cyw * sp) + (-cyw * cp)⟩
  ⟨cam.position, dirWorld⟩

/-! ## `src/renderer/Animator.ts` `animateGlyph` -/

/-- `Animator.ts` `animateGlyph`: possibly re-select a glyph according to the
material's motion behavior (threads the glyph cache state). -/
def animateGlyph (m : JSMath) (glyph : GlyphRecord) (material : Material) (time : ℚ)
    (originalParams : GlyphQueryParams) (gc : GlyphCacheState) :
    Option GlyphRecord × GlyphCacheState :=
  match material.motionBehavior with
  | none => (some glyph, gc)
  | some mb =>
    match mb.type with
    | .static => (some glyph, gc)
    | .pulse =>
      let pulseFactor := 1 + m.sin (time * mb.speed) * 0.3
      let newCoverage := clampQ (glyph.normalizedCoverage * pulseFactor) 0 1
      GlyphCache.select { originalParams with targetCoverage := newCoverage } gc
    | .flicker =>
      let offset := m.sin (time * mb.speed * 17.3) * m.sin (time * mb.speed * 11.1) * 0.15
      let flickerCoverage := clampQ (glyph.normalizedCoverage + offset) 0 1
      GlyphCache.select { originalParams with targetCoverage := flickerCoverage } gc
    | .flow =>
      let flowComplexity := (m.sin (time * mb.speed) + 1) / 2
      GlyphCache.select { originalParams with targetComplexity := some flowComplexity } gc

/-! ## `src/renderer/RenderLoop.ts` `renderFrameSingleThread`

The embedding fixes `useAdaptiveQuality = false` (the mode the temporal
claims are stated in); the frame-deadline sampling and the `getMaxSteps`
radial step budget are guarded by that flag in the source and are then dead
code, so `maxSteps` is the constant 64.  A `traces` counter instruments how
many times `raymarch` is invoked. -/

/-- `const RAMP = ' .,:;=+*#%@'` as the list of its code points. -/
def RAMP : List ℚ := [32, 46, 44, 58, 59, 61, 43, 42, 35, 37, 64]

/-- JavaScript `entities[eIdx]` for a possibly negative / out-of-range
index: `undefined` is `none`. -/
def entityAt (entities : List Entity) (i : ℤ) : Option Entity :=
  if 0 ≤ i then entities.get? i.toNat else none

structure RenderState where
  fb : FrameBuffer
  tc : TemporalCache
  gc : Option GlyphCacheState
  traces : ℕ

/-- The full-raymarch tail of the per-pixel loop body (reached when temporal
reuse does not apply). -/
def fullTracePixel (m : JSMath) (scene : Scene) (world : World) (x y : ℕ)
    (st : RenderState) : RenderState :=
  let ray := createRay m scene.camera x y st.fb.width st.fb.height
  match raymarch m ray world 64 with
  | .hit position normal material distance entityIndex =>
    let lit := computeLighting m position normal material scene
    let params : GlyphQueryParams :=
      ⟨lit.brightness, some |normal.z|, some material.roughness, material.glyphStyle⟩
    let sel :=
      match st.gc with
      | some g =>
        let r := GlyphCache.select params g
        (r.1, some r.2)
      | none => ((none : Option GlyphRecord), (none : Option GlyphCacheState))
    let anim :=
      match sel.1, material.motionBehavior, sel.2 with
      | some gl, some _, some g =>
        let pixelOffset := m.sin (position.x * 1.7 + position.y * 2.3 + position.z * 1.1)
        let r := animateGlyph m gl material (scene.time + pixelOffset * 0.5) params g
        (r.1, some r.2)
      | _, _, _ => sel
    let char :=
      match anim.1 with
      | some gl => gl.char
      | none => (RAMP.get? (clampZ ⌊lit.brightness * 10⌋ 0 10).toNat).getD 0
    ⟨st.fb.set x y char (lit.r : ℚ) (lit.g : ℚ) (lit.b : ℚ) lit.brightness,
     st.tc.store x y distance entityIndex position normal,
     anim.2, st.traces + 1⟩
  | .miss =>
    let bg := scene.environment.backgroundColor
    ⟨st.fb.set x y 0x20 bg.r bg.g bg.b 0, st.tc.storeMiss x y, st.gc, st.traces + 1⟩

/-- One iteration of the per-pixel loop of `renderFrameSingleThread`
(temporal-reuse decision, then either skip, geometry-reuse reshade, or full
trace). -/
def renderPixel (m : JSMath) (scene : Scene) (world : World)
    (useTemporalReuse cameraChangedB anyMoving anyFlicker : Bool)
    (st : RenderState) (xy : ℕ × ℕ) : RenderState :=
  let x := xy.1
  let y := xy.2
  if useTemporalReuse && !cameraChangedB && st.tc.isValid x y then
    let eIdx := st.tc.getEntityIndex x y
    if eIdx = -1 then
      -- previous frame was a miss: reuse if nothing moves
      if !anyMoving then st else fullTracePixel m scene world x y st
    else
      let entityMoving :=
        match entityAt scene.entities eIdx with
        | some e => e.velocity.isSome || e.angularVelocity.isSome
        | none => false
      if !entityMoving then
        if anyFlicker then
          -- geometry reuse: recompute only lighting and glyph selection
          match entityAt scene.entities eIdx with
          | some entity =>
            let hitPos := st.tc.getHitPos x y
            let normal := st.tc.getNormal x y
            let lit := computeLighting m hitPos normal entity.material scene
            let params : GlyphQueryParams :=
              ⟨lit.brightness, some |normal.z|, some entity.material.roughness,
               entity.material.glyphStyle⟩
            let sel :=
              match st.gc with
              | some g =>
                let r := GlyphCache.select params g
                (r.1, some r.2)
              | none => ((none : Option GlyphRecord), (none : Option GlyphCacheState))
            let char :=
              match sel.1 with
              | some gl => gl.char
              | none => (RAMP.get? ⌊lit.brightness * 10⌋.toNat).getD 0
            ⟨st.fb.set x y char (lit.r : ℚ) (lit.g : ℚ) (lit.b : ℚ) lit.brightness,
             st.tc, sel.2, st.traces⟩
          | none => st
          -- an out-of-range cached index with a flickering light would throw
          -- on the material access in JavaScript; no claim reaches it
        else st
      else fullTracePixel m scene world x y st
  else fullTracePixel m scene world x y st

/-- The row-major pixel enumeration of the double loop (`y` outer). -/
def pixelList (width height : ℕ) : List (ℕ × ℕ) :=
  (List.range height).flatMap fun y => (List.range width).map fun x => (x, y)

/-- The pixel loop of `renderFrameSingleThread`: the per-frame reuse
predicates (`cameraChanged`, `anyEntityMoving`, `anyLightFlickering`) are
computed once, then the loop body runs over every pixel. -/
def framePixelFold (m : JSMath) (scene : Scene) (world : World)
    (useTemporalReuse : Bool) (st0 : RenderState) : RenderState :=
  (pixelList st0.fb.width st0.fb.height).foldl
    (renderPixel m scene world useTemporalReuse
      (st0.tc.cameraChanged scene.camera.position scene.camera.rotation)
      (scene.entities.any fun e => e.velocity.isSome || e.angularVelocity.isSome)
      (scene.lights.any fun l => l.flicker.isSome)) st0

/-- `RenderLoop.renderFrameSingleThread` with `useAdaptiveQuality = false`:
run the pixel loop, then `updateCamera`. -/
def renderFrameSingleThread (m : JSMath) (scene : Scene) (world : World)
    (useTemporalReuse : Bool) (st0 : RenderState) : RenderState :=
  let st1 := framePixelFold m scene world useTemporalReuse st0
  { st1 with tc := st1.tc.updateCamera scene.camera.position scene.camera.rotation }

/-! ## Concrete witness fixtures -/

/-- A `JSMath` model whose `sqrt` is tabulated on the perfect squares the
witness executions reach and whose trigonometric functions agree with the
real ones at 0 (`sin 0 = 0`, `cos 0 = 1`). -/
def witnessMath : JSMath :=
  ⟨fun q => if q = 0 then 0 else if q = 1 then 1 else if q = 4 then 2 else 0,
   fun _ => 0, fun _ => 1, fun _ => 0, fun _ _ => 0, 0⟩

/-- The material of the test sphere of `test/test-world.ts`. -/
def sphereMaterial : Material :=
  ⟨⟨255, 120, 50⟩, 1, none, 0.5, 0, none, none, none⟩

/-- The unit sphere entity at `(0,1,0)` of `test/test-world.ts` /
`test/test-raymarch.ts`. -/
def sphereEntity : Entity :=
  ⟨"sphere_1", ⟨⟨0, 1, 0⟩, ⟨0, 0, 0⟩, ⟨1, 1, 1⟩⟩, .sphere 1, sphereMaterial, none, none⟩

/-- The world holding exactly that sphere. -/
def sphereWorld : World := World.build [sphereEntity]

/-- A ground-plane entity: infinite geometry, so the grid never buckets it. -/
def planeEntity : Entity :=
  ⟨"ground", ⟨⟨0, 0, 0⟩, ⟨0, 0, 0⟩, ⟨1, 1, 1⟩⟩, .plane ⟨0, 1, 0⟩, sphereMaterial, none, none⟩

/-- A glyph record with the given char/coverage/roundness/complexity/
horizontal-symmetry values (raw and normalized features coincide) and
neutral remaining features. -/
def mkRecord (char cov round comp symH : ℚ) : GlyphRecord :=
  ⟨char, char, cov, round, comp, symH, 0, 1, 1, 0, 0, 0, 0, 0, cov, comp, 0⟩

def recNoiseLow : GlyphRecord := mkRecord 65 (1 / 2) 0 0 0
def recNoiseHigh : GlyphRecord := mkRecord 66 (1 / 2) 0 1 0
def pNoise : GlyphQueryParams := ⟨1 / 2, none, none, some .noise⟩
def noiseDB : GlyphDB := ⟨[recNoiseLow, recNoiseHigh]⟩

def recBlockLow : GlyphRecord := mkRecord 67 (1 / 2) 0 0 0
def recBlockHigh : GlyphRecord := mkRecord 68 (1 / 2) 0 0 1
def pBlock : GlyphQueryParams := ⟨1 / 2, none, none, some .block⟩
def blockDB : GlyphDB := ⟨[recBlockLow, recBlockHigh]⟩

/-- Two records whose normalized coverages (0.39 and 0.7) straddle the empty
coverage window of a query at 0.5. -/
def recNear : GlyphRecord := mkRecord 69 (39 / 100) 0 0 0
def recFar : GlyphRecord := mkRecord 70 (7 / 10) 0 0 0
def db3 : GlyphDB := ⟨[recNear, recFar]⟩
def p3 : GlyphQueryParams := ⟨1 / 2, none, none, none⟩

/-- A one-record database for the cache counterexample. -/
def dbOne : GlyphDB := ⟨[recNear]⟩

/-- Query parameters whose negative inputs quantize to the out-of-table key
−2047. -/
def pNeg : GlyphQueryParams := ⟨-1, some (-1), some (-1), none⟩

/-- A static scene with no entities and no lights. -/
def emptyScene : Scene :=
  ⟨0, ⟨⟨0, 0, 0⟩, ⟨0, 0, 0⟩, 60, 1 / 10, 100⟩, ⟨1 / 10, ⟨0, 0, 0⟩, none, none, none⟩, [], []⟩

/-- The world built from no entities. -/
def emptyWorld : World := World.build []

/-- A freshly initialized 1×1 render state with no glyph cache. -/
def initState : RenderState := ⟨FrameBuffer.init 1 1, TemporalCache.init 1 1, none, 0⟩

/-! # Theorems -/

/-- With zero rotation and unit scale, `worldToLocal` is translation by the
entity position. -/
theorem worldToLocal_sphereEntity (m : JSMath) (hc : m.cos 0 = 1) (hsn : m.sin 0 = 0)
    (p : Vec3) : worldToLocal m p sphereEntity.transform = sub p ⟨0, 1, 0⟩ := by
  simp [worldToLocal, sphereEntity, sub, hc, hsn]

theorem hashCellA : hashCell (-1) 0 (-1) = 10423274 := by decide
theorem hashCellB : hashCell (-1) 0 0 = 4221111203 := by decide
theorem hashCellC : hashCell (-1) 1 (-1) = 28855157 := by decide
theorem hashCellD : hashCell (-1) 1 0 = 4206775100 := by decide
theorem hashCellE : hashCell 0 0 (-1) = 4211474505 := by decide
theorem hashCellF : hashCell 0 0 0 = 0 := by decide
theorem hashCellG : hashCell 0 1 (-1) = 4196483286 := by decide
theorem hashCellH : hashCell 0 1 0 = 19349663 := by decide
theorem hashCellI : hashCell 0 0 3 = 250478373 := by decide

theorem cellRangeA : cellRange (-1) 0 = [-1, 0] := by decide
theorem cellRangeB : cellRange 0 1 = [0, 1] := by decide

/-- The AABB of the unit sphere at `(0,1,0)` with unit scale. -/
theorem sphereAABB : computeAABB sphereEntity = ⟨⟨-1, 0, -1⟩, ⟨1, 2, 1⟩⟩ := by
  norm_num [computeAABB, sphereEntity, sub, add]

/-- The grid cells the unit sphere at `(0,1,0)` overlaps (x-outer loop
order). -/
theorem sphere_cell_hashes :
    entityCellHashes 2 (computeAABB sphereEntity) =
      [10423274, 4221111203, 28855157, 4206775100, 4211474505, 0, 4196483286, 19349663] := by
  rw [sphereAABB]
  norm_num [entityCellHashes, cellRangeA, cellRangeB,
    hashCellA, hashCellB, hashCellC, hashCellD, hashCellE, hashCellF, hashCellG, hashCellH]

/-- The single-sphere grid, evaluated at the cells the claims touch. -/
theorem sphereGrid_eval :
    sphereWorld.grid.cells 0 = [0] ∧ sphereWorld.grid.cells 19349663 = [0] ∧
    sphereWorld.grid.cells 250478373 = [] ∧ sphereWorld.grid.globalIndices = [] := by
  have hinf : isInfiniteType sphereEntity.geometry = false := rfl
  refine ⟨?_, ?_, ?_, ?_⟩ <;>
    simp [sphereWorld, World.build, SpatialGrid.build, rebuildAux, rebuildStep, hinf,
      sphere_cell_hashes, addToCell]

/-- `World.sample` on the single-sphere world, at any point whose grid cell
contains the sphere (and nothing else). -/
theorem sample_single_sphere (m : JSMath) (hc : m.cos 0 = 1) (hsn : m.sin 0 = 0)
    (p : Vec3) (hcand : sphereWorld.grid.getCandidates p = [0]) :
    World.sample m sphereWorld p =
      some ⟨m.sqrt ((p.x - 0) * (p.x - 0) + (p.y - 1) * (p.y - 1) + (p.z - 0) * (p.z - 0)) - 1,
            sphereMaterial, "sphere_1", 0⟩ := by
  have hent : sphereWorld.entities.get? 0 = some sphereEntity := rfl
  simp only [World.sample, hcand, List.foldl_cons, List.foldl_nil, hent]
  rw [worldToLocal_sphereEntity m hc hsn]
  simp [evaluateSDF, sdSphere, vlength, sub, sphereEntity, sphereMaterial]

/-- C5: sampling the single unit sphere at `(0,1,0)` gives distance −1 at
the center, 0 on the surface point `(0,2,0)`, and 1 at `(0,3,0)`. -/
theorem C5_world_sample_single_sphere (m : JSMath)
    (hs0 : m.sqrt 0 = 0) (hs1 : m.sqrt 1 = 1) (hs4 : m.sqrt 4 = 2)
    (hc : m.cos 0 = 1) (hsn : m.sin 0 = 0) :
    (World.sample m sphereWorld ⟨0, 1, 0⟩).map SampleHit.distance = some (-1) ∧
    (World.sample m sphereWorld ⟨0, 2, 0⟩).map SampleHit.distance = some 0 ∧
    (World.sample m sphereWorld ⟨0, 3, 0⟩).map SampleHit.distance = some 1 := by
  have hcs : sphereWorld.grid.cellSize = 2 := rfl
  have h1 : sphereWorld.grid.getCandidates ⟨0, 1, 0⟩ = [0] := by
    norm_num [SpatialGrid.getCandidates, hcs, hashCellF,
      sphereGrid_eval.1, sphereGrid_eval.2.2.2]
  have h2 : sphereWorld.grid.getCandidates ⟨0, 2, 0⟩ = [0] := by
    norm_num [SpatialGrid.getCandidates, hcs, hashCellH,
      sphereGrid_eval.2.1, sphereGrid_eval.2.2.2]
  have h3 : sphereWorld.grid.getCandidates ⟨0, 3, 0⟩ = [0] := by
    norm_num [SpatialGrid.getCandidates, hcs, hashCellH,
      sphereGrid_eval.2.1, sphereGrid_eval.2.2.2]
  refine ⟨?_, ?_, ?_⟩
  · rw [sample_single_sphere m hc hsn ⟨0, 1, 0⟩ h1]
    norm_num [hs0]
  · rw [sample_single_sphere m hc hsn ⟨0, 2, 0⟩ h2]
    norm_num [hs1]
  · rw [sample_single_sphere m hc hsn ⟨0, 3, 0⟩ h3]
    norm_num [hs4]

/-- Witness for C5 at the tabulated math model. -/
theorem C5_witness :
    witnessMath.sqrt 0 = 0 ∧ witnessMath.sqrt 1 = 1 ∧ witnessMath.sqrt 4 = 2 ∧
    witnessMath.cos 0 = 1 ∧ witnessMath.sin 0 = 0 ∧
    ((World.sample witnessMath sphereWorld ⟨0, 1, 0⟩).map SampleHit.distance = some (-1) ∧
     (World.sample witnessMath sphereWorld ⟨0, 2, 0⟩).map SampleHit.distance = some 0 ∧
     (World.sample witnessMath sphereWorld ⟨0, 3, 0⟩).map SampleHit.distance = some 1) :=
  ⟨by norm_num [witnessMath], by norm_num [witnessMath], by norm_num [witnessMath],
   rfl, rfl,
   C5_world_sample_single_sphere witnessMath (by norm_num [witnessMath])
     (by norm_num [witnessMath]) (by norm_num [witnessMath]) rfl rfl⟩

/-- C1: the sphere tracer fired from `(0,1,6)` toward `(0,0,-1)` at the unit
sphere at `(0,1,0)` reports a MISS, for every model of the `Math`
primitives: the first sample point `(0,1,6)` lies in grid cell `(0,0,3)`,
which the sphere (cells `z ∈ {-1,0}`) does not overlap, so `World.sample`
returns the `Infinity` sentinel, `t` jumps past `MAX_DISTANCE`, and the
march terminates without a hit — contradicting `test/test-raymarch.ts`,
which expects a hit at distance ≈ 5 with normal ≈ `(0,0,1)`. -/
theorem C1_raymarch_first_cell_miss (m : JSMath) :
    raymarch m ⟨⟨0, 1, 6⟩, ⟨0, 0, -1⟩⟩ sphereWorld 64 = .miss := by
  have hcs : sphereWorld.grid.cellSize = 2 := rfl
  have hpos : add ⟨0, 1, 6⟩ (mul ⟨0, 0, -1⟩ 0) = (⟨0, 1, 6⟩ : Vec3) := by
    norm_num [add, mul]
  have hcand : sphereWorld.grid.getCandidates ⟨0, 1, 6⟩ = [] := by
    norm_num [SpatialGrid.getCandidates, hcs, hashCellI,
      sphereGrid_eval.2.2.1, sphereGrid_eval.2.2.2]
  have hsamp : World.sample m sphereWorld ⟨0, 1, 6⟩ = none := by
    simp [World.sample, hcand]
  show raymarchLoop m sphereWorld ⟨⟨0, 1, 6⟩, ⟨0, 0, -1⟩⟩ (63 + 1) 0 = .miss
  rw [raymarchLoop]
  simp only [hpos, hsamp]

/-! ## C7: adaptive quality controller -/

theorem adjust_gt (T t s : ℚ) (h : t > T * 1.2) :
    AdaptiveQuality.adjust T t s = max 0.5 (s - 0.05) := by
  simp [AdaptiveQuality.adjust, h]

theorem adjust_lt (T t s : ℚ) (hT : 0 < T) (h : t < T * 0.8) :
    AdaptiveQuality.adjust T t s = min 1.0 (s + 0.02) := by
  have h2 : ¬ t > T * 1.2 := by nlinarith
  simp [AdaptiveQuality.adjust, h, h2]

theorem adjust_mid (T t s : ℚ) (h1 : ¬ t > T * 1.2) (h2 : ¬ t < T * 0.8) :
    AdaptiveQuality.adjust T t s = s := by
  simp [AdaptiveQuality.adjust, h1, h2]

theorem adjust_mem (T t s : ℚ) (hlo : 1 / 2 ≤ s) (hhi : s ≤ 1) :
    1 / 2 ≤ AdaptiveQuality.adjust T t s ∧ AdaptiveQuality.adjust T t s ≤ 1 := by
  unfold AdaptiveQuality.adjust
  split
  · constructor
    · norm_num [le_max_iff]
    · rw [max_le_iff]; constructor <;> [norm_num; linarith]
  · split
    · constructor
      · rw [le_min_iff]; constructor <;> [norm_num; linarith]
      · norm_num [min_le_iff]
    · exact ⟨hlo, hhi⟩

theorem max_floor_shift (a : ℚ) : max 0.5 (max 0.5 a - 0.05) = max 0.5 (a - 0.05) := by
  rcases le_total a 0.5 with h | h
  · rw [max_eq_left h, max_eq_left (by norm_num), max_eq_left (by linarith)]
  · rw [max_eq_right h]

theorem min_ceil_shift (a : ℚ) : min 1.0 (min 1.0 a + 0.02) = min 1.0 (a + 0.02) := by
  rcases le_total a 1.0 with h | h
  · rw [min_eq_right h]
  · rw [min_eq_left h, min_eq_left (by norm_num), min_eq_left (by linarith)]

theorem adjustSeq_down_formula (T : ℚ) (times : ℕ → ℚ) (s0 : ℚ)
    (ht : ∀ i, times i > T * 1.2) (h05 : 1 / 2 ≤ s0) :
    ∀ n, adjustSeq T times s0 n = max 0.5 (s0 - n * 0.05)
  | 0 => by
      rw [adjustSeq, max_eq_right (by push_cast; linarith)]
      push_cast
      ring
  | n + 1 => by
      rw [adjustSeq, adjustSeq_down_formula T times s0 ht h05 n,
        adjust_gt T (times n) _ (ht n), max_floor_shift]
      congr 1
      push_cast
      ring

theorem adjustSeq_up_formula (T : ℚ) (times : ℕ → ℚ) (s0 : ℚ) (hT : 0 < T)
    (ht : ∀ i, times i < T * 0.8) (h1 : s0 ≤ 1) :
    ∀ n, adjustSeq T times s0 n = min 1.0 (s0 + n * 0.02)
  | 0 => by
      rw [adjustSeq, min_eq_right (by push_cast; linarith)]
      push_cast
      ring
  | n + 1 => by
      rw [adjustSeq, adjustSeq_up_formula T times s0 hT ht h1 n,
        adjust_lt T (times n) _ hT (ht n), min_ceil_shift]
      congr 1
      push_cast
      ring

/-- C7: the adaptive-quality controller's `adjust` realizes exactly the
three claimed cases (decrease by 0.05 clamped at 0.5 above 120% of target,
increase by 0.02 clamped at 1.0 under 80%, unchanged otherwise), keeps the
scale inside `[0.5, 1.0]`, strictly decreases it each step down to the floor
0.5 under persistently slow frames (reached from scale ≤ 1 within 10
adjustments), and strictly increases it up to the ceiling 1.0 under
persistently fast frames (reached within 25 adjustments). -/
theorem C7_adaptive_quality_scale (T : ℚ) (hT : 0 < T) :
    (∀ s t, 1 / 2 ≤ s → s ≤ 1 →
      (t > T * 1.2 → AdaptiveQuality.adjust T t s = max 0.5 (s - 0.05)) ∧
      (t < T * 0.8 → AdaptiveQuality.adjust T t s = min 1.0 (s + 0.02)) ∧
      (¬ t > T * 1.2 → ¬ t < T * 0.8 → AdaptiveQuality.adjust T t s = s)) ∧
    (∀ s t, 1 / 2 ≤ s → s ≤ 1 →
      1 / 2 ≤ AdaptiveQuality.adjust T t s ∧ AdaptiveQuality.adjust T t s ≤ 1) ∧
    (∀ times s0, (∀ i, times i > T * 1.2) → 1 / 2 ≤ s0 → s0 ≤ 1 →
      (∀ n, 1 / 2 < adjustSeq T times s0 n →
        adjustSeq T times s0 (n + 1) < adjustSeq T times s0 n) ∧
      (∀ n, 10 ≤ n → adjustSeq T times s0 n = 1 / 2)) ∧
    (∀ times s0, (∀ i, times i < T * 0.8) → 1 / 2 ≤ s0 → s0 ≤ 1 →
      (∀ n, adjustSeq T times s0 n < 1 →
        adjustSeq T times s0 n < adjustSeq T times s0 (n + 1)) ∧
      (∀ n, 25 ≤ n → adjustSeq T times s0 n = 1)) := by
  refine ⟨fun s t _ _ => ⟨fun h => adjust_gt T t s h, fun h => adjust_lt T t s hT h,
      fun h1 h2 => adjust_mid T t s h1 h2⟩,
    fun s t hlo hhi => adjust_mem T t s hlo hhi, ?_, ?_⟩
  · intro times s0 ht hlo hhi
    constructor
    · intro n hgt
      rw [adjustSeq, adjust_gt T (times n) _ (ht n)]
      apply max_lt
      · linarith
      · linarith
    · intro n hn
      rw [adjustSeq_down_formula T times s0 ht hlo n, max_eq_left]
      · norm_num
      have : (10 : ℚ) ≤ (n : ℚ) := by exact_mod_cast hn
      nlinarith
  · intro times s0 ht hlo hhi
    constructor
    · intro n hlt
      rw [adjustSeq, adjust_lt T (times n) _ hT (ht n)]
      apply lt_min
      · linarith
      · linarith
    · intro n hn
      rw [adjustSeq_up_formula T times s0 hT ht hhi n, min_eq_left]
      · norm_num
      have : (25 : ℚ) ≤ (n : ℚ) := by exact_mod_cast hn
      nlinarith

/-- Witness for C7: target 100 ms, all frame times 130 ms, starting scale 1;
after 10 adjustments the scale sits at the floor 0.5. -/
theorem C7_witness :
    (0 : ℚ) < 100 ∧ adjustSeq 100 (fun _ => 130) 1 10 = 1 / 2 :=
  ⟨by norm_num,
   ((C7_adaptive_quality_scale 100 (by norm_num)).2.2.1 (fun _ => 130) 1
      (fun _ => by norm_num) (by norm_num) le_rfl).2 10 le_rfl⟩

/-! ## C9: `FrameBuffer.set` dirty discipline -/

theorem set_chars_at (fb : FrameBuffer) (x y : ℕ) (char r g b brightness : ℚ)
    (hc : toUint32 char = char) :
    (fb.set x y char r g b brightness).chars (y * fb.width + x) = char := by
  by_cases heq : fb.chars (y * fb.width + x) = char
  · simp [FrameBuffer.set, heq]
  · simp [FrameBuffer.set, heq, updFn, hc]

theorem set_colorR_at (fb : FrameBuffer) (x y : ℕ) (char r g b brightness : ℚ)
    (hr : toUint8 r = r) :
    (fb.set x y char r g b brightness).colorR (y * fb.width + x) = r := by
  by_cases heq : fb.colorR (y * fb.width + x) = r
  · simp [FrameBuffer.set, heq]
  · simp [FrameBuffer.set, heq, updFn, hr]

theorem set_colorG_at (fb : FrameBuffer) (x y : ℕ) (char r g b brightness : ℚ)
    (hg : toUint8 g = g) :
    (fb.set x y char r g b brightness).colorG (y * fb.width + x) = g := by
  by_cases heq : fb.colorG (y * fb.width + x) = g
  · simp [FrameBuffer.set, heq]
  · simp [FrameBuffer.set, heq, updFn, hg]

theorem set_colorB_at (fb : FrameBuffer) (x y : ℕ) (char r g b brightness : ℚ)
    (hb : toUint8 b = b) :
    (fb.set x y char r g b brightness).colorB (y * fb.width + x) = b := by
  by_cases heq : fb.colorB (y * fb.width + x) = b
  · simp [FrameBuffer.set, heq]
  · simp [FrameBuffer.set, heq, updFn, hb]

theorem set_brightness_at (fb : FrameBuffer) (x y : ℕ) (char r g b brightness : ℚ) :
    (fb.set x y char r g b brightness).brightness (y * fb.width + x) = brightness := by
  by_cases heq : fb.brightness (y * fb.width + x) = brightness
  · simp [FrameBuffer.set, heq]
  · simp [FrameBuffer.set, heq, updFn]

theorem set_other_cells (fb : FrameBuffer) (x y : ℕ) (char r g b brightness : ℚ)
    (j : ℕ) (hj : j ≠ y * fb.width + x) :
    (fb.set x y char r g b brightness).chars j = fb.chars j ∧
    (fb.set x y char r g b brightness).colorR j = fb.colorR j ∧
    (fb.set x y char r g b brightness).colorG j = fb.colorG j ∧
    (fb.set x y char r g b brightness).colorB j = fb.colorB j ∧
    (fb.set x y char r g b brightness).brightness j = fb.brightness j ∧
    (fb.set x y char r g b brightness).dirty j = fb.dirty j := by
  unfold FrameBuffer.set
  refine ⟨?_, ?_, ?_, ?_, ?_, ?_⟩ <;> (dsimp only; split <;> simp [updFn, hj])

/-- C9: `FrameBuffer.set` with all five values equal to the cell's stored
values leaves the buffer (dirty flag included) unchanged; if any value
differs, the cell ends up holding exactly the written values, its dirty flag
is set, and no other cell changes.  The hypotheses say the written values
are representable in their backing typed arrays, so that "stored" means
"equal to the argument". -/
theorem C9_framebuffer_set (fb : FrameBuffer) (x y : ℕ) (char r g b brightness : ℚ)
    (hc : toUint32 char = char) (hr : toUint8 r = r) (hg : toUint8 g = g)
    (hb : toUint8 b = b) :
    ((fb.chars (y * fb.width + x) = char ∧ fb.colorR (y * fb.width + x) = r ∧
      fb.colorG (y * fb.width + x) = g ∧ fb.colorB (y * fb.width + x) = b ∧
      fb.brightness (y * fb.width + x) = brightness) →
        fb.set x y char r g b brightness = fb) ∧
    ((fb.chars (y * fb.width + x) ≠ char ∨ fb.colorR (y * fb.width + x) ≠ r ∨
      fb.colorG (y * fb.width + x) ≠ g ∨ fb.colorB (y * fb.width + x) ≠ b ∨
      fb.brightness (y * fb.width + x) ≠ brightness) →
        (fb.set x y char r g b brightness).dirty (y * fb.width + x) = true ∧
        (fb.set x y char r g b brightness).chars (y * fb.width + x) = char ∧
        (fb.set x y char r g b brightness).colorR (y * fb.width + x) = r ∧
        (fb.set x y char r g b brightness).colorG (y * fb.width + x) = g ∧
        (fb.set x y char r g b brightness).colorB (y * fb.width + x) = b ∧
        (fb.set x y char r g b brightness).brightness (y * fb.width + x) = brightness ∧
        (∀ j, j ≠ y * fb.width + x →
          (fb.set x y char r g b brightness).chars j = fb.chars j ∧
          (fb.set x y char r g b brightness).colorR j = fb.colorR j ∧
          (fb.set x y char r g b brightness).colorG j = fb.colorG j ∧
          (fb.set x y char r g b brightness).colorB j = fb.colorB j ∧
          (fb.set x y char r g b brightness).brightness j = fb.brightness j ∧
          (fb.set x y char r g b brightness).dirty j = fb.dirty j)) := by
  constructor
  · rintro ⟨h1, h2, h3, h4, h5⟩
    simp [FrameBuffer.set, h1, h2, h3, h4, h5]
  · intro hdiff
    refine ⟨?_, set_chars_at fb x y char r g b brightness hc,
      set_colorR_at fb x y char r g b brightness hr,
      set_colorG_at fb x y char r g b brightness hg,
      set_colorB_at fb x y char r g b brightness hb,
      set_brightness_at fb x y char r g b brightness,
      fun j hj => set_other_cells fb x y char r g b brightness j hj⟩
    unfold FrameBuffer.set
    dsimp only
    rw [if_pos hdiff]
    simp [updFn]

/-- Witness for C9 on a freshly cleared 2×2 buffer: writing `(65,10,20,30,½)`
at the origin differs from the stored `(32,0,0,0,0)`. -/
theorem C9_witness :
    toUint32 65 = 65 ∧ toUint8 10 = 10 ∧ toUint8 20 = 20 ∧ toUint8 30 = 30 ∧
    (FrameBuffer.init 2 2).chars (0 * (FrameBuffer.init 2 2).width + 0) ≠ 65 ∧
    ((FrameBuffer.init 2 2).set 0 0 65 10 20 30 (1 / 2)).dirty
      (0 * (FrameBuffer.init 2 2).width + 0) = true ∧
    ((FrameBuffer.init 2 2).set 0 0 65 10 20 30 (1 / 2)).chars
      (0 * (FrameBuffer.init 2 2).width + 0) = 65 := by
  have h32 : toUint32 (65 : ℚ) = 65 := by norm_num [toUint32, jsTrunc]
  have h10 : toUint8 (10 : ℚ) = 10 := by norm_num [toUint8, jsTrunc]
  have h20 : toUint8 (20 : ℚ) = 20 := by norm_num [toUint8, jsTrunc]
  have h30 : toUint8 (30 : ℚ) = 30 := by norm_num [toUint8, jsTrunc]
  have hne : (FrameBuffer.init 2 2).chars (0 * (FrameBuffer.init 2 2).width + 0) ≠ 65 := by
    norm_num [FrameBuffer.init, FrameBuffer.clear]
  have happ := (C9_framebuffer_set (FrameBuffer.init 2 2) 0 0 65 10 20 30 (1 / 2)
    h32 h10 h20 h30).2 (Or.inl hne)
  exact ⟨h32, h10, h20, h30, hne, happ.1, happ.2.1⟩

/-! ## C2: style bias direction for `noise` and `block` -/

/-- C2 (amended): in `queryBest`'s scoring, for two candidates identical in
all other score terms, style `noise` assigns the lower (better) score to the
candidate with the HIGHER normalized complexity, and style `block` to the
candidate with the HIGHER horizontal symmetry — each bias carrying weight
1.5 (the spec sentence states both directions inverted). -/
theorem C2_style_bias_noise_block (p : GlyphQueryParams) (g1 g2 : GlyphRecord)
    (hcov : coverageTerm p g1 = coverageTerm p g2)
    (hround : roundnessTerm p g1 = roundnessTerm p g2)
    (hcomp : complexityTerm p g1 = complexityTerm p g2) :
    (p.glyphStyle = some .noise →
      scoreGlyph p g2 - scoreGlyph p g1 =
        1.5 * (g1.normalizedComplexity - g2.normalizedComplexity) ∧
      (g2.normalizedComplexity < g1.normalizedComplexity →
        scoreGlyph p g1 < scoreGlyph p g2)) ∧
    (p.glyphStyle = some .block →
      scoreGlyph p g2 - scoreGlyph p g1 = 1.5 * (g1.symmetryH - g2.symmetryH) ∧
      (g2.symmetryH < g1.symmetryH → scoreGlyph p g1 < scoreGlyph p g2)) := by
  constructor
  · intro hstyle
    have e1 : styleTerm p g1 = 1.5 * (1 - g1.normalizedComplexity) := by
      simp [styleTerm, hstyle, styleBias]
    have e2 : styleTerm p g2 = 1.5 * (1 - g2.normalizedComplexity) := by
      simp [styleTerm, hstyle, styleBias]
    constructor
    · simp only [scoreGlyph, hcov, hround, hcomp, e1, e2]
      ring
    · intro hlt
      simp only [scoreGlyph, hcov, hround, hcomp, e1, e2]
      linarith
  · intro hstyle
    have e1 : styleTerm p g1 = 1.5 * (1 - g1.symmetryH) := by
      simp [styleTerm, hstyle, styleBias]
    have e2 : styleTerm p g2 = 1.5 * (1 - g2.symmetryH) := by
      simp [styleTerm, hstyle, styleBias]
    constructor
    · simp only [scoreGlyph, hcov, hround, hcomp, e1, e2]
      ring
    · intro hlt
      simp only [scoreGlyph, hcov, hround, hcomp, e1, e2]
      linarith

/-- Binary search over a two-record list when the first record is already at
or above the lower bound. -/
theorem bsearch_two_lo (gs : List GlyphRecord) (lo : ℚ) (h0 : ¬ covAt gs 0 < lo) :
    bsearchLo gs lo 0 1 = 0 := by
  rw [bsearchLo]
  simp only [show (0 : ℕ) < 1 from Nat.one_pos, dite_true, show ((0 : ℕ) + 1) / 2 = 0 from rfl,
    h0, if_false]
  rw [bsearchLo]
  simp

/-- Binary search over a two-record list when the first record is below the
lower bound. -/
theorem bsearch_two_hi (gs : List GlyphRecord) (lo : ℚ) (h0 : covAt gs 0 < lo) :
    bsearchLo gs lo 0 1 = 1 := by
  rw [bsearchLo]
  simp only [show (0 : ℕ) < 1 from Nat.one_pos, dite_true, show ((0 : ℕ) + 1) / 2 = 0 from rfl,
    h0, if_true]
  rw [bsearchLo]
  simp

/-- One accepted step of the linear coverage-window scan. -/
theorem scanEnd_step (gs : List GlyphRecord) (hi : ℚ) (i : ℕ)
    (h : i < gs.length ∧ covAt gs i ≤ hi) : scanEnd gs hi i = scanEnd gs hi (i + 1) := by
  rw [scanEnd]
  simp [h]

/-- The coverage-window scan stops where its condition fails. -/
theorem scanEnd_stop (gs : List GlyphRecord) (hi : ℚ) (i : ℕ)
    (h : ¬ (i < gs.length ∧ covAt gs i ≤ hi)) : scanEnd gs hi i = i := by
  rw [scanEnd]
  simp [h]

/-- C2 counterexample to the claim as stated: two `noise` candidates (and
two `block` candidates) identical in every other score term, where the one
with the LOWER complexity (resp. LOWER horizontal symmetry) gets the HIGHER
score, and `queryBest` picks the other one. -/
theorem C2_counterexample :
    recNoiseLow.normalizedComplexity < recNoiseHigh.normalizedComplexity ∧
    coverageTerm pNoise recNoiseLow = coverageTerm pNoise recNoiseHigh ∧
    roundnessTerm pNoise recNoiseLow = roundnessTerm pNoise recNoiseHigh ∧
    complexityTerm pNoise recNoiseLow = complexityTerm pNoise recNoiseHigh ∧
    ¬ scoreGlyph pNoise recNoiseLow < scoreGlyph pNoise recNoiseHigh ∧
    queryBest noiseDB pNoise = some recNoiseHigh ∧
    recBlockLow.symmetryH < recBlockHigh.symmetryH ∧
    ¬ scoreGlyph pBlock recBlockLow < scoreGlyph pBlock recBlockHigh ∧
    queryBest blockDB pBlock = some recBlockHigh := by
  have hqn : queryBest noiseDB pNoise = some recNoiseHigh := by
    have hb : bsearchLo [recNoiseLow, recNoiseHigh] (1 / 2 - 1 / 10) 0 1 = 0 :=
      bsearch_two_lo _ _ (by norm_num [covAt, recNoiseLow, mkRecord])
    have hsc : scanEnd [recNoiseLow, recNoiseHigh] (1 / 2 + 1 / 10) 0 = 2 := by
      rw [scanEnd_step _ _ _ ⟨by norm_num, by norm_num [covAt, recNoiseLow, mkRecord]⟩,
        scanEnd_step _ _ _ ⟨by norm_num, by norm_num [covAt, recNoiseHigh, mkRecord]⟩,
        scanEnd_stop _ _ _ (by norm_num)]
    show queryBest ⟨[recNoiseLow, recNoiseHigh]⟩ ⟨1 / 2, none, none, some .noise⟩ =
      some recNoiseHigh
    simp only [queryBest]
    rw [show ([recNoiseLow, recNoiseHigh].length : ℕ) - 1 = 1 from rfl, hb, hsc]
    norm_num [pickBest, pickBestAux, scoreGlyph, coverageTerm,
      roundnessTerm, complexityTerm, styleTerm, styleBias, recNoiseLow, recNoiseHigh, mkRecord]
  have hqb : queryBest blockDB pBlock = some recBlockHigh := by
    have hb : bsearchLo [recBlockLow, recBlockHigh] (1 / 2 - 1 / 10) 0 1 = 0 :=
      bsearch_two_lo _ _ (by norm_num [covAt, recBlockLow, mkRecord])
    have hsc : scanEnd [recBlockLow, recBlockHigh] (1 / 2 + 1 / 10) 0 = 2 := by
      rw [scanEnd_step _ _ _ ⟨by norm_num, by norm_num [covAt, recBlockLow, mkRecord]⟩,
        scanEnd_step _ _ _ ⟨by norm_num, by norm_num [covAt, recBlockHigh, mkRecord]⟩,
        scanEnd_stop _ _ _ (by norm_num)]
    show queryBest ⟨[recBlockLow, recBlockHigh]⟩ ⟨1 / 2, none, none, some .block⟩ =
      some recBlockHigh
    simp only [queryBest]
    rw [show ([recBlockLow, recBlockHigh].length : ℕ) - 1 = 1 from rfl, hb, hsc]
    norm_num [pickBest, pickBestAux, scoreGlyph, coverageTerm,
      roundnessTerm, complexityTerm, styleTerm, styleBias, recBlockLow, recBlockHigh, mkRecord]
  refine ⟨by norm_num [recNoiseLow, recNoiseHigh, mkRecord],
    by norm_num [coverageTerm, pNoise, recNoiseLow, recNoiseHigh, mkRecord],
    by norm_num [roundnessTerm, pNoise],
    by norm_num [complexityTerm, pNoise],
    by norm_num [scoreGlyph, coverageTerm, roundnessTerm, complexityTerm, styleTerm,
      styleBias, pNoise, recNoiseLow, recNoiseHigh, mkRecord],
    hqn,
    by norm_num [recBlockLow, recBlockHigh, mkRecord],
    by norm_num [scoreGlyph, coverageTerm, roundnessTerm, complexityTerm, styleTerm,
      styleBias, pBlock, recBlockLow, recBlockHigh, mkRecord],
    hqb⟩

/-- Witness for C2's amended theorem at the concrete `noise` pair. -/
theorem C2_witness :
    coverageTerm pNoise recNoiseHigh = coverageTerm pNoise recNoiseLow ∧
    roundnessTerm pNoise recNoiseHigh = roundnessTerm pNoise recNoiseLow ∧
    complexityTerm pNoise recNoiseHigh = complexityTerm pNoise recNoiseLow ∧
    recNoiseLow.normalizedComplexity < recNoiseHigh.normalizedComplexity ∧
    scoreGlyph pNoise recNoiseHigh < scoreGlyph pNoise recNoiseLow := by
  have h1 : coverageTerm pNoise recNoiseHigh = coverageTerm pNoise recNoiseLow := by
    norm_num [coverageTerm, pNoise, recNoiseHigh, recNoiseLow, mkRecord]
  have h2 : roundnessTerm pNoise recNoiseHigh = roundnessTerm pNoise recNoiseLow := by
    norm_num [roundnessTerm, pNoise]
  have h3 : complexityTerm pNoise recNoiseHigh = complexityTerm pNoise recNoiseLow := by
    norm_num [complexityTerm, pNoise]
  have h4 : recNoiseLow.normalizedComplexity < recNoiseHigh.normalizedComplexity := by
    norm_num [recNoiseLow, recNoiseHigh, mkRecord]
  exact ⟨h1, h2, h3, h4,
    ((C2_style_bias_noise_block pNoise recNoiseHigh recNoiseLow h1 h2 h3).1 rfl).2 h4⟩

/-! ## C3: the empty-window fallback of `queryBest` -/

theorem pickBest_singleton (p : GlyphQueryParams) (g : GlyphRecord) :
    pickBest p [g] = some g := rfl

/-- Invariant-carrying specification of `queryBest`'s binary search on a
coverage-sorted list: the result stays within `[left, right]`, everything
strictly below it is below `lo`, and it either carries coverage ≥ `lo` or is
the last index. -/
theorem bsearchLo_spec (gs : List GlyphRecord) (lo : ℚ)
    (hmono : ∀ i j, i ≤ j → j < gs.length → covAt gs i ≤ covAt gs j)
    (hne : gs ≠ []) :
    ∀ d left right, right - left = d → left ≤ right → right ≤ gs.length - 1 →
      (∀ k < left, covAt gs k < lo) → (right = gs.length - 1 ∨ lo ≤ covAt gs right) →
      left ≤ bsearchLo gs lo left right ∧ bsearchLo gs lo left right ≤ right ∧
      (∀ k < bsearchLo gs lo left right, covAt gs k < lo) ∧
      (bsearchLo gs lo left right = gs.length - 1 ∨
       lo ≤ covAt gs (bsearchLo gs lo left right)) := by
  have hlen : 1 ≤ gs.length := List.length_pos.2 hne
  intro d
  induction d using Nat.strong_induction_on with
  | _ d ih =>
    intro left right hd hle hrb hbelow hright
    rw [bsearchLo]
    by_cases hlr : left < right
    · rw [dif_pos hlr]
      by_cases hc : covAt gs ((left + right) / 2) < lo
      · rw [if_pos hc]
        have hnext : ∀ k < (left + right) / 2 + 1, covAt gs k < lo := by
          intro k hk
          rcases lt_or_ge k left with h | h
          · exact hbelow k h
          · calc covAt gs k ≤ covAt gs ((left + right) / 2) :=
                  hmono k ((left + right) / 2) (by omega) (by omega)
              _ < lo := hc
        have := ih (right - ((left + right) / 2 + 1)) (by omega)
          ((left + right) / 2 + 1) right rfl (by omega) hrb hnext hright
        exact ⟨by omega, this.2.1, this.2.2.1, this.2.2.2⟩
      · rw [if_neg hc]
        have := ih ((left + right) / 2 - left) (by omega) left ((left + right) / 2)
          rfl (by omega) (by omega) hbelow (Or.inr (not_lt.1 hc))
        exact ⟨this.1, by omega, this.2.2.1, this.2.2.2⟩
    · rw [dif_neg hlr]
      have heq : left = right := le_antisymm hle (not_lt.1 hlr)
      exact ⟨le_rfl, le_of_eq heq, hbelow, heq ▸ hright⟩

/-- `bsearchLo` launched over the full sorted list, as `queryBest` does. -/
theorem bsearchLo_full (gs : List GlyphRecord) (lo : ℚ)
    (hmono : ∀ i j, i ≤ j → j < gs.length → covAt gs i ≤ covAt gs j)
    (hne : gs ≠ []) :
    bsearchLo gs lo 0 (gs.length - 1) ≤ gs.length - 1 ∧
    (∀ k < bsearchLo gs lo 0 (gs.length - 1), covAt gs k < lo) ∧
    (bsearchLo gs lo 0 (gs.length - 1) = gs.length - 1 ∨
     lo ≤ covAt gs (bsearchLo gs lo 0 (gs.length - 1))) := by
  have := bsearchLo_spec gs lo hmono hne (gs.length - 1) 0 (gs.length - 1) rfl
    (Nat.zero_le _) le_rfl (by omega) (Or.inl rfl)
  exact ⟨this.2.1, this.2.2.1, this.2.2.2⟩

/-- Pairwise coverage-sortedness gives index-wise monotonicity of `covAt`. -/
theorem covAt_mono_of_sorted (gs : List GlyphRecord)
    (hsorted : gs.Pairwise fun a b => a.normalizedCoverage ≤ b.normalizedCoverage) :
    ∀ i j, i ≤ j → j < gs.length → covAt gs i ≤ covAt gs j := by
  intro i j hij hj
  rcases eq_or_lt_of_le hij with rfl | hlt
  · exact le_rfl
  · have hi : i < gs.length := lt_trans hlt hj
    have := (List.pairwise_iff_get.1 hsorted) ⟨i, hi⟩ ⟨j, hj⟩ hlt
    rw [covAt, covAt, List.get?_eq_get hi, List.get?_eq_get hj]
    simpa using this

/-- Membership of the record at a concrete index. -/
theorem covAt_mem (gs : List GlyphRecord) (i : ℕ) (hi : i < gs.length) :
    ∃ g, gs.get? i = some g ∧ g ∈ gs ∧ g.normalizedCoverage = covAt gs i := by
  refine ⟨gs.get ⟨i, hi⟩, List.get?_eq_get hi, List.get_mem gs i hi, ?_⟩
  rw [covAt, List.get?_eq_get hi]
  rfl

/-- C3 (corrected): on a sorted non-empty database whose coverage window
`[target−0.1, target+0.1]` is empty, `queryBest` falls back to the record at
the binary-search index — the FIRST record with coverage ≥ `target − 0.1`
when one exists (not necessarily the globally nearest), and the last record
(which is then the nearest) only when every record lies below the window. -/
theorem C3_empty_window_fallback (db : GlyphDB) (p : GlyphQueryParams)
    (hsorted : db.glyphs.Pairwise fun a b => a.normalizedCoverage ≤ b.normalizedCoverage)
    (hne : db.glyphs ≠ [])
    (hempty : ∀ g ∈ db.glyphs,
      ¬ (p.targetCoverage - 1 / 10 ≤ g.normalizedCoverage ∧
         g.normalizedCoverage ≤ p.targetCoverage + 1 / 10)) :
    ((∃ i, i < db.glyphs.length ∧ p.targetCoverage - 1 / 10 ≤ covAt db.glyphs i) →
      ∃ i, i < db.glyphs.length ∧ p.targetCoverage - 1 / 10 ≤ covAt db.glyphs i ∧
        (∀ j < i, covAt db.glyphs j < p.targetCoverage - 1 / 10) ∧
        queryBest db p = db.glyphs.get? i) ∧
    ((∀ i, i < db.glyphs.length → covAt db.glyphs i < p.targetCoverage - 1 / 10) →
      queryBest db p = db.glyphs.get? (db.glyphs.length - 1)) := by
  have hlen : 1 ≤ db.glyphs.length := List.length_pos.2 hne
  have hmono := covAt_mono_of_sorted db.glyphs hsorted
  obtain ⟨hrle, hrbelow, hror⟩ :=
    bsearchLo_full db.glyphs (p.targetCoverage - 1 / 10) hmono hne
  set r := bsearchLo db.glyphs (p.targetCoverage - 1 / 10) 0 (db.glyphs.length - 1)
    with hrdef
  have hrlt : r < db.glyphs.length := by omega
  constructor
  · intro hex
    have hlor : p.targetCoverage - 1 / 10 ≤ covAt db.glyphs r := by
      rcases hror with heq | hge
      · by_contra hnot
        obtain ⟨i, hi, hge2⟩ := hex
        rcases lt_or_ge i r with h | h
        · exact absurd hge2 (not_le.2 (hrbelow i h))
        · have hieq : i = r := by omega
          exact hnot (hieq ▸ hge2)
      · exact hge
    obtain ⟨g, hg, hgmem, hgcov⟩ := covAt_mem db.glyphs r hrlt
    have hgt : ¬ covAt db.glyphs r ≤ p.targetCoverage + 1 / 10 := by
      intro hle2
      exact hempty g hgmem ⟨hgcov ▸ hlor, hgcov ▸ hle2⟩
    have hscan : scanEnd db.glyphs (p.targetCoverage + 1 / 10) r = r :=
      scanEnd_stop _ _ _ (by intro hcontra; exact hgt hcontra.2)
    refine ⟨r, hrlt, hlor, hrbelow, ?_⟩
    simp only [queryBest]
    rw [if_neg (show ¬ db.glyphs.length = 0 by omega), ← hrdef, hscan,
      if_neg (lt_irrefl r), Nat.max_zero, min_eq_left hrle]
    simp only [hg]
    rw [pickBest_singleton]
  · intro hall
    have hreq : r = db.glyphs.length - 1 := by
      rcases hror with heq | hge
      · exact heq
      · exact absurd hge (not_le.2 (hall r hrlt))
    have hcovr : covAt db.glyphs r < p.targetCoverage - 1 / 10 := hall r hrlt
    have hscan1 : scanEnd db.glyphs (p.targetCoverage + 1 / 10) r =
        scanEnd db.glyphs (p.targetCoverage + 1 / 10) (r + 1) :=
      scanEnd_step _ _ _ ⟨hrlt, by linarith⟩
    have hscan2 : scanEnd db.glyphs (p.targetCoverage + 1 / 10) (r + 1) = r + 1 :=
      scanEnd_stop _ _ _ (by intro h; omega)
    simp only [queryBest]
    rw [if_neg (show ¬ db.glyphs.length = 0 by omega), ← hrdef, hscan1, hscan2,
      if_pos (Nat.lt_succ_self r)]
    have htake : (db.glyphs.drop r).take (r + 1 - r) = [db.glyphs.get ⟨r, hrlt⟩] := by
      rw [show r + 1 - r = 1 by omega, List.drop_eq_getElem_cons hrlt,
        List.take_succ_cons, List.take_zero, List.get_eq_getElem]
    rw [htake, pickBest_singleton, ← hreq]
    exact (List.get?_eq_get hrlt).symm

/-- C3 counterexample to the claim as stated: coverages {0.39, 0.7}, target
0.5 — the window [0.4, 0.6] is empty and the globally nearest record is the
0.39 one (distance 0.11 vs 0.2), yet `queryBest` returns the 0.7 one (the
first record at or above the window). -/
theorem C3_counterexample :
    (∀ g ∈ db3.glyphs,
      ¬ (p3.targetCoverage - 1 / 10 ≤ g.normalizedCoverage ∧
         g.normalizedCoverage ≤ p3.targetCoverage + 1 / 10)) ∧
    |recNear.normalizedCoverage - p3.targetCoverage| <
      |recFar.normalizedCoverage - p3.targetCoverage| ∧
    recNear ∈ db3.glyphs ∧
    queryBest db3 p3 = some recFar ∧
    recFar ≠ recNear := by
  have hq : queryBest db3 p3 = some recFar := by
    have hb : bsearchLo [recNear, recFar] (1 / 2 - 1 / 10) 0 1 = 1 :=
      bsearch_two_hi _ _ (by norm_num [covAt, recNear, mkRecord])
    have hsc : scanEnd [recNear, recFar] (1 / 2 + 1 / 10) 1 = 1 :=
      scanEnd_stop _ _ _ (by norm_num [covAt, recFar, mkRecord])
    show queryBest ⟨[recNear, recFar]⟩ ⟨1 / 2, none, none, none⟩ = some recFar
    simp only [queryBest]
    rw [show ([recNear, recFar].length : ℕ) - 1 = 1 from rfl, hb, hsc]
    norm_num [pickBest_singleton]
  refine ⟨?_, ?_, ?_, hq, ?_⟩
  · intro g hg
    simp only [db3, List.mem_cons, List.not_mem_nil, or_false] at hg
    rcases hg with rfl | rfl <;> norm_num [recNear, recFar, mkRecord, p3]
  · have e1 : |recNear.normalizedCoverage - p3.targetCoverage| = 11 / 100 := by
      rw [show recNear.normalizedCoverage - p3.targetCoverage = -(11 / 100) by
        norm_num [recNear, mkRecord, p3], abs_neg, abs_of_pos (by norm_num)]
    have e2 : |recFar.normalizedCoverage - p3.targetCoverage| = 1 / 5 := by
      rw [show recFar.normalizedCoverage - p3.targetCoverage = 1 / 5 by
        norm_num [recFar, mkRecord, p3], abs_of_pos (by norm_num)]
    rw [e1, e2]
    norm_num
  · simp [db3]
  · norm_num [recNear, recFar, mkRecord]

/-- Witness for C3's amended theorem at the concrete straddling database. -/
theorem C3_witness :
    (db3.glyphs.Pairwise fun a b => a.normalizedCoverage ≤ b.normalizedCoverage) ∧
    db3.glyphs ≠ [] ∧
    (∀ g ∈ db3.glyphs,
      ¬ (p3.targetCoverage - 1 / 10 ≤ g.normalizedCoverage ∧
         g.normalizedCoverage ≤ p3.targetCoverage + 1 / 10)) ∧
    (∃ i, i < db3.glyphs.length ∧ p3.targetCoverage - 1 / 10 ≤ covAt db3.glyphs i ∧
      (∀ j < i, covAt db3.glyphs j < p3.targetCoverage - 1 / 10) ∧
      queryBest db3 p3 = db3.glyphs.get? i) := by
  have h1 : db3.glyphs.Pairwise fun a b => a.normalizedCoverage ≤ b.normalizedCoverage := by
    norm_num [db3, List.pairwise_cons, recNear, recFar, mkRecord]
  have h2 : db3.glyphs ≠ [] := by simp [db3]
  have h3 : ∀ g ∈ db3.glyphs,
      ¬ (p3.targetCoverage - 1 / 10 ≤ g.normalizedCoverage ∧
         g.normalizedCoverage ≤ p3.targetCoverage + 1 / 10) := by
    intro g hg
    simp only [db3, List.mem_cons, List.not_mem_nil, or_false] at hg
    rcases hg with rfl | rfl <;> norm_num [recNear, recFar, mkRecord, p3]
  exact ⟨h1, h2, h3, (C3_empty_window_fallback db3 p3 h1 h2 h3).1
    ⟨1, by norm_num [db3], by norm_num [covAt, db3, recFar, mkRecord, p3]⟩⟩

/-! ## C6: glyph-cache warmup -/

/-- Bounds of the binary search without any sortedness assumption. -/
theorem bsearchLo_bounds (gs : List GlyphRecord) (lo : ℚ) :
    ∀ d left right, right - left = d → left ≤ right →
      left ≤ bsearchLo gs lo left right ∧ bsearchLo gs lo left right ≤ right := by
  intro d
  induction d using Nat.strong_induction_on with
  | _ d ih =>
    intro left right hd hle
    rw [bsearchLo]
    by_cases hlr : left < right
    · rw [dif_pos hlr]
      by_cases hc : covAt gs ((left + right) / 2) < lo
      · rw [if_pos hc]
        have := ih (right - ((left + right) / 2 + 1)) (by omega)
          ((left + right) / 2 + 1) right rfl (by omega)
        exact ⟨by omega, this.2⟩
      · rw [if_neg hc]
        have := ih ((left + right) / 2 - left) (by omega) left ((left + right) / 2)
          rfl (by omega)
        exact ⟨this.1, by omega⟩
    · rw [dif_neg hlr]
      omega

theorem pickBest_isSome (p : GlyphQueryParams) (l : List GlyphRecord) (h : l ≠ []) :
    (pickBest p l).isSome := by
  cases l with
  | nil => exact absurd rfl h
  | cons c cs => rfl

/-- `queryBest` always produces a record on a non-empty database. -/
theorem queryBest_isSome (db : GlyphDB) (p : GlyphQueryParams) (hne : db.glyphs ≠ []) :
    (queryBest db p).isSome := by
  have hlen : 1 ≤ db.glyphs.length := List.length_pos.2 hne
  have hb := bsearchLo_bounds db.glyphs (p.targetCoverage - 1 / 10)
    (db.glyphs.length - 1) 0 (db.glyphs.length - 1) rfl (Nat.zero_le _)
  simp only [queryBest]
  rw [if_neg (show ¬ db.glyphs.length = 0 by omega)]
  by_cases hcase : bsearchLo db.glyphs (p.targetCoverage - 1 / 10) 0 (db.glyphs.length - 1) <
      scanEnd db.glyphs (p.targetCoverage + 1 / 10)
        (bsearchLo db.glyphs (p.targetCoverage - 1 / 10) 0 (db.glyphs.length - 1))
  · rw [if_pos hcase]
    apply pickBest_isSome
    intro hnil
    rcases List.take_eq_nil_iff.1 hnil with h | h
    · omega
    · rw [List.drop_eq_nil_iff] at h
      omega
  · rw [if_neg hcase]
    have hlt : min (max (bsearchLo db.glyphs (p.targetCoverage - 1 / 10) 0
        (db.glyphs.length - 1)) 0) (db.glyphs.length - 1) < db.glyphs.length := by omega
    obtain ⟨g, hg, -, -⟩ := covAt_mem db.glyphs _ hlt
    rw [hg]
    exact pickBest_isSome p [g] (by simp)

theorem select_db (p : GlyphQueryParams) (s : GlyphCacheState) :
    ((GlyphCache.select p s).2).db = s.db := by
  simp only [GlyphCache.select]
  split
  · cases hcc : s.cache (buildKey p)
    · cases hq : queryBest s.db p <;> simp [hcc, hq]
    · simp [hcc]
  · simp

theorem select_preserves_isSome (p : GlyphQueryParams) (s : GlyphCacheState) (k : ℤ)
    (h : (s.cache k).isSome) : (((GlyphCache.select p s).2).cache k).isSome := by
  simp only [GlyphCache.select]
  split
  · cases hcc : s.cache (buildKey p)
    · cases hq : queryBest s.db p
      · simpa [hcc, hq] using h
      · by_cases hk : k = buildKey p <;> simp [hcc, hq, hk, h]
    · simpa [hcc] using h
  · simpa using h

theorem select_own_key (p : GlyphQueryParams) (s : GlyphCacheState)
    (hne : s.db.glyphs ≠ []) (hk0 : 0 ≤ buildKey p) (hk1 : buildKey p < 18432) :
    (((GlyphCache.select p s).2).cache (buildKey p)).isSome := by
  simp only [GlyphCache.select]
  rw [if_pos ⟨hk0, hk1⟩]
  cases hcc : s.cache (buildKey p)
  · obtain ⟨g, hg⟩ := Option.isSome_iff_exists.1 (queryBest_isSome s.db p hne)
    simp [hcc, hg]
  · simp [hcc]

theorem warmupFold_preserves (ps : List GlyphQueryParams) :
    ∀ (s : GlyphCacheState) (k : ℤ), (s.cache k).isSome →
      ((ps.foldl (fun st p => (GlyphCache.select p st).2) s).cache k).isSome := by
  induction ps with
  | nil => intro s k h; simpa using h
  | cons p rest ih =>
    intro s k h
    rw [List.foldl_cons]
    exact ih _ k (select_preserves_isSome p s k h)

theorem warmupFold_db (ps : List GlyphQueryParams) :
    ∀ s : GlyphCacheState, (ps.foldl (fun st p => (GlyphCache.select p st).2) s).db = s.db := by
  induction ps with
  | nil => intro s; rfl
  | cons p rest ih =>
    intro s
    rw [List.foldl_cons, ih, select_db]

theorem warmupFold_covers (ps : List GlyphQueryParams) :
    ∀ (s : GlyphCacheState), s.db.glyphs ≠ [] →
      (∀ q ∈ ps, 0 ≤ buildKey q ∧ buildKey q < 18432) → ∀ q ∈ ps,
      ((ps.foldl (fun st p => (GlyphCache.select p st).2) s).cache (buildKey q)).isSome := by
  induction ps with
  | nil => intro s _ _ q hq; exact absurd hq (List.not_mem_nil q)
  | cons p rest ih =>
    intro s hdb hrange q hq
    rw [List.foldl_cons]
    rcases List.mem_cons.1 hq with rfl | hmem
    · have hr := hrange q (List.mem_cons_self q rest)
      exact warmupFold_preserves rest _ _ (select_own_key q s hdb hr.1 hr.2)
    · exact ih ((GlyphCache.select p s).2) (by rw [select_db]; exact hdb)
        (fun q2 hq2 => hrange q2 (List.mem_cons_of_mem p hq2)) q hmem

theorem resetCounters_fields (t : GlyphCacheState) :
    ({ t with hits := 0, misses := 0 } : GlyphCacheState).hits = 0 ∧
    ({ t with hits := 0, misses := 0 } : GlyphCacheState).misses = 0 ∧
    ({ t with hits := 0, misses := 0 } : GlyphCacheState).cache = t.cache ∧
    ({ t with hits := 0, misses := 0 } : GlyphCacheState).db = t.db := by
  cases t
  exact ⟨rfl, rfl, rfl, rfl⟩

theorem warmup_hits (s : GlyphCacheState) : (GlyphCache.warmup s).hits = 0 := by
  unfold GlyphCache.warmup
  exact (resetCounters_fields _).1

theorem warmup_misses (s : GlyphCacheState) : (GlyphCache.warmup s).misses = 0 := by
  unfold GlyphCache.warmup
  exact (resetCounters_fields _).2.1

theorem bumpHits_fields (t : GlyphCacheState) :
    ({ t with hits := t.hits + 1 } : GlyphCacheState).misses = t.misses ∧
    ({ t with hits := t.hits + 1 } : GlyphCacheState).hits = t.hits + 1 ∧
    ({ t with hits := t.hits + 1 } : GlyphCacheState).cache = t.cache := by
  cases t
  exact ⟨rfl, rfl, rfl⟩

/-- A `select` whose in-range key holds a cached record returns it and bumps
only the hit counter. -/
theorem select_hit (p : GlyphQueryParams) (t : GlyphCacheState) (g : GlyphRecord)
    (hk0 : 0 ≤ buildKey p) (hk1 : buildKey p < 18432)
    (hg : t.cache (buildKey p) = some g) :
    GlyphCache.select p t = (some g, { t with hits := t.hits + 1 }) := by
  simp only [GlyphCache.select]
  rw [if_pos ⟨hk0, hk1⟩, hg]

/-- A `select` whose key falls outside the slot array reads `undefined`,
which the `!== null` guard treats as a hit: it returns `undefined` and bumps
only the hit counter, without consulting the database. -/
theorem select_out_of_range (p : GlyphQueryParams) (t : GlyphCacheState)
    (hk : ¬(0 ≤ buildKey p ∧ buildKey p < 18432)) :
    GlyphCache.select p t = (none, { t with hits := t.hits + 1 }) := by
  simp only [GlyphCache.select]
  rw [if_neg hk]

/-- Against a state whose in-range slots are all filled, any `select`
whatsoever only bumps the hit counter: a filled slot hits, and an
out-of-range key hits on `undefined`. -/
theorem select_served (p : GlyphQueryParams) (t : GlyphCacheState)
    (hcov : ∀ k : ℤ, 0 ≤ k → k < 18432 → (t.cache k).isSome) :
    (GlyphCache.select p t).2 = { t with hits := t.hits + 1 } := by
  by_cases hk : 0 ≤ buildKey p ∧ buildKey p < 18432
  · obtain ⟨g, hg⟩ := Option.isSome_iff_exists.1 (hcov (buildKey p) hk.1 hk.2)
    rw [select_hit p t g hk.1 hk.2 hg]
  · rw [select_out_of_range p t hk]

/-- Any sequence of `select`s against a state whose in-range slots are all
filled leaves the miss counter untouched: no call in the sequence ever
delegates to the database. -/
theorem selectFold_no_miss (ps : List GlyphQueryParams) :
    ∀ t : GlyphCacheState, (∀ k : ℤ, 0 ≤ k → k < 18432 → (t.cache k).isSome) →
      (ps.foldl (fun st p => (GlyphCache.select p st).2) t).misses = t.misses := by
  induction ps with
  | nil => intro t _; rfl
  | cons p rest ih =>
    intro t hcov
    rw [List.foldl_cons, select_served p t hcov]
    have hcov2 : ∀ k : ℤ, 0 ≤ k → k < 18432 →
        (({ t with hits := t.hits + 1 } : GlyphCacheState).cache k).isSome := by
      intro k h0 h1
      rw [(bumpHits_fields t).2.2]
      exact hcov k h0 h1
    rw [ih _ hcov2, (bumpHits_fields t).1]

theorem styleToIndex_styleOfIndex (si : ℕ) (h : si < 9) :
    styleToIndex (styleOfIndex si) = (si : ℤ) := by
  interval_cases si <;> rfl

theorem styleToIndex_bounds (st : Option GlyphStyle) :
    0 ≤ styleToIndex st ∧ styleToIndex st ≤ 8 := by
  cases st with
  | none => exact ⟨by decide, by decide⟩
  | some s => cases s <;> exact ⟨by decide, by decide⟩

theorem floor_div_mul_self (a : ℕ) (n : ℚ) (hn : n ≠ 0) :
    ⌊((a : ℚ) / n) * n⌋ = (a : ℤ) := by
  rw [div_mul_cancel₀ _ hn]
  exact_mod_cast Int.floor_natCast a

/-- `buildKey` on a warmup parameter tuple is the positional-weight
encoding. -/
theorem buildKey_warmup (si bb rb cb : ℕ) (hsi : si < 9) (hbb : bb < 32)
    (hrb : rb < 8) (hcb : cb < 8) :
    buildKey ⟨(bb : ℚ) / 31, some ((rb : ℚ) / 7), some ((cb : ℚ) / 7), styleOfIndex si⟩ =
      (bb : ℤ) + rb * 32 + cb * 256 + si * 2048 := by
  unfold buildKey
  simp only [Option.getD_some]
  rw [floor_div_mul_self bb 31 (by norm_num), floor_div_mul_self rb 7 (by norm_num),
    floor_div_mul_self cb 7 (by norm_num), styleToIndex_styleOfIndex si hsi,
    min_eq_right (show (bb : ℤ) ≤ 31 by exact_mod_cast Nat.lt_succ_iff.1 hbb),
    min_eq_right (show (rb : ℤ) ≤ 7 by exact_mod_cast Nat.lt_succ_iff.1 hrb),
    min_eq_right (show (cb : ℤ) ≤ 7 by exact_mod_cast Nat.lt_succ_iff.1 hcb)]

theorem warmupParams_mem (si bb rb cb : ℕ) (hsi : si < 9) (hbb : bb < 32)
    (hrb : rb < 8) (hcb : cb < 8) :
    (⟨(bb : ℚ) / 31, some ((rb : ℚ) / 7), some ((cb : ℚ) / 7), styleOfIndex si⟩ :
      GlyphQueryParams) ∈ warmupParams := by
  unfold warmupParams
  exact List.mem_flatMap.2 ⟨si, List.mem_range.2 hsi,
    List.mem_flatMap.2 ⟨bb, List.mem_range.2 hbb,
      List.mem_flatMap.2 ⟨rb, List.mem_range.2 hrb,
        List.mem_map_of_mem
          (fun (cb : ℕ) => (⟨(bb : ℚ) / 31, some ((rb : ℚ) / 7), some ((cb : ℚ) / 7),
            styleOfIndex si⟩ : GlyphQueryParams))
          (List.mem_range.2 hcb)⟩⟩⟩

/-- Every warmup parameter tuple quantizes to an in-range key. -/
theorem warmupParams_keys_range :
    ∀ q ∈ warmupParams, 0 ≤ buildKey q ∧ buildKey q < 18432 := by
  intro q hq
  unfold warmupParams at hq
  obtain ⟨si, hsi, hq1⟩ := List.mem_flatMap.1 hq
  obtain ⟨bb, hbb, hq2⟩ := List.mem_flatMap.1 hq1
  obtain ⟨rb, hrb, hq3⟩ := List.mem_flatMap.1 hq2
  obtain ⟨cb, hcb, hq4⟩ := List.mem_map.1 hq3
  have h1 := List.mem_range.1 hsi
  have h2 := List.mem_range.1 hbb
  have h3 := List.mem_range.1 hrb
  have h4 := List.mem_range.1 hcb
  rw [← hq4, buildKey_warmup si bb rb cb h1 h2 h3 h4]
  omega

/-- The cache table after `warmup` is the table after the select fold (the
final step only resets the counters). -/
theorem warmup_cache_eq (s : GlyphCacheState) :
    (GlyphCache.warmup s).cache =
      (warmupParams.foldl (fun st p => (GlyphCache.select p st).2) s).cache := by
  unfold GlyphCache.warmup
  exact (resetCounters_fields _).2.2.1

/-- Every key in `[0, 18432)` is the `buildKey` of some warmup parameter. -/
theorem key_decompose (k : ℤ) (h0 : 0 ≤ k) (h1 : k < 18432) :
    ∃ q ∈ warmupParams, buildKey q = k := by
  obtain ⟨kn, rfl⟩ := Int.eq_ofNat_of_zero_le h0
  have hkn : kn < 18432 := by exact_mod_cast h1
  refine ⟨⟨((kn % 32 : ℕ) : ℚ) / 31, some (((kn / 32 % 8 : ℕ) : ℚ) / 7),
    some (((kn / 256 % 8 : ℕ) : ℚ) / 7), styleOfIndex (kn / 2048)⟩,
    warmupParams_mem (kn / 2048) (kn % 32) (kn / 32 % 8) (kn / 256 % 8)
      (by omega) (by omega) (by omega) (by omega), ?_⟩
  rw [buildKey_warmup (kn / 2048) (kn % 32) (kn / 32 % 8) (kn / 256 % 8)
      (by omega) (by omega) (by omega) (by omega)]
  push_cast
  omega

/-- C6: after `warmup()` on a cache whose database is non-empty, every one
of the 18,432 slots (32 coverage × 8 roundness × 8 complexity × 9 style
buckets) holds a record, the hit and miss counters are both 0, and every
subsequent `select()` — at any parameters whatsoever, and over any sequence
of calls — is served from the cache without delegating to the database: the
post-state only bumps the hit counter.  (An in-range key finds its slot
filled by warmup; an out-of-range negative key reads JavaScript `undefined`,
which the `cached !== null` guard also treats as a hit.) -/
theorem C6_warmup_fills_cache (s : GlyphCacheState) (hne : s.db.glyphs ≠ []) :
    (∀ k : ℤ, 0 ≤ k → k < 18432 → ((GlyphCache.warmup s).cache k).isSome) ∧
    (GlyphCache.warmup s).hits = 0 ∧
    (GlyphCache.warmup s).misses = 0 ∧
    (∀ p : GlyphQueryParams,
      (GlyphCache.select p (GlyphCache.warmup s)).2 =
        { GlyphCache.warmup s with hits := (GlyphCache.warmup s).hits + 1 }) ∧
    ∀ ps : List GlyphQueryParams,
      (ps.foldl (fun st p => (GlyphCache.select p st).2) (GlyphCache.warmup s)).misses = 0 := by
  have hcover : ∀ k : ℤ, 0 ≤ k → k < 18432 → ((GlyphCache.warmup s).cache k).isSome := by
    intro k hk0 hk1
    obtain ⟨q, hqmem, hqkey⟩ := key_decompose k hk0 hk1
    have hq := warmupFold_covers warmupParams s hne warmupParams_keys_range q hqmem
    rw [hqkey] at hq
    rw [warmup_cache_eq]
    exact hq
  refine ⟨hcover, warmup_hits s, warmup_misses s,
    fun p => select_served p (GlyphCache.warmup s) hcover, fun ps => ?_⟩
  rw [selectFold_no_miss ps (GlyphCache.warmup s) hcover, warmup_misses]

/-- Witness for C6 on the one-record database: warmup from the fresh cache
fills slot 0, and a subsequent select at fully negative parameters (key
−2047) is still served without delegating, as is a two-call sequence. -/
theorem C6_witness :
    (GlyphCache.init dbOne).db.glyphs ≠ [] ∧
    ((GlyphCache.warmup (GlyphCache.init dbOne)).cache 0).isSome ∧
    (GlyphCache.select pNeg (GlyphCache.warmup (GlyphCache.init dbOne))).2 =
      { GlyphCache.warmup (GlyphCache.init dbOne) with
        hits := (GlyphCache.warmup (GlyphCache.init dbOne)).hits + 1 } ∧
    ([pNeg, ⟨1 / 2, none, none, none⟩].foldl (fun st p => (GlyphCache.select p st).2)
        (GlyphCache.warmup (GlyphCache.init dbOne))).misses = 0 := by
  have hne : (GlyphCache.init dbOne).db.glyphs ≠ [] := by
    show dbOne.glyphs ≠ []
    simp [dbOne]
  have happ := C6_warmup_fills_cache (GlyphCache.init dbOne) hne
  exact ⟨hne, happ.1 0 le_rfl (by norm_num), happ.2.2.2.1 pNeg,
    happ.2.2.2.2 [pNeg, ⟨1 / 2, none, none, none⟩]⟩

/-- The fully negative parameter tuple quantizes below the slot array:
`buildKey` clamps the buckets only from above. -/
theorem buildKey_pNeg : buildKey pNeg = -2047 := by
  unfold buildKey
  norm_num [pNeg, styleToIndex, Option.getD_some]

/-! ## C8: spatial-grid invariants -/

theorem addToCell_nodup (cells : ℕ → List ℕ) (h i : ℕ) (hn : ∀ k, (cells k).Nodup) :
    ∀ k, ((addToCell cells h i) k).Nodup := by
  intro k
  unfold addToCell
  split
  · split
    · exact hn h
    · rename_i hmem
      rw [← List.concat_eq_append]
      exact (hn h).concat hmem
  · exact hn k

theorem addToCell_mem (cells : ℕ → List ℕ) (h i k j : ℕ)
    (hj : j ∈ (addToCell cells h i) k) : j ∈ cells k ∨ j = i := by
  unfold addToCell at hj
  split at hj
  · rename_i hk
    subst hk
    split at hj
    · exact Or.inl hj
    · rcases List.mem_append.1 hj with hj2 | hj2
      · exact Or.inl hj2
      · exact Or.inr (by simpa using hj2)
  · exact Or.inl hj

theorem foldl_addToCell_nodup (hs : List ℕ) (i : ℕ) :
    ∀ cells, (∀ k, (cells k).Nodup) →
      ∀ k, ((hs.foldl (fun cs h => addToCell cs h i) cells) k).Nodup := by
  induction hs with
  | nil => intro cells hn k; exact hn k
  | cons h rest ih =>
    intro cells hn k
    exact ih _ (addToCell_nodup cells h i hn) k

theorem foldl_addToCell_mem (hs : List ℕ) (i : ℕ) :
    ∀ cells k j, j ∈ (hs.foldl (fun cs h => addToCell cs h i) cells) k →
      j ∈ cells k ∨ j = i := by
  induction hs with
  | nil => intro cells k j hj; exact Or.inl hj
  | cons h rest ih =>
    intro cells k j hj
    rcases ih _ k j hj with hj2 | hj2
    · exact addToCell_mem cells h i k j hj2
    · exact Or.inr hj2

/-- Invariants of `rebuild`'s entity loop, relative to the starting index
and accumulator: cell lists stay duplicate-free, cells gain only indices of
finite entities, and the always-evaluated list collects exactly the infinite
entities. -/
theorem rebuildAux_spec (cellSize : ℚ) :
    ∀ (rest : List Entity) (i0 : ℕ) (acc : (ℕ → List ℕ) × List ℕ),
      (∀ k, (acc.1 k).Nodup) →
      (∀ k, ((rebuildAux cellSize rest i0 acc).1 k).Nodup) ∧
      (∀ k j, j ∈ (rebuildAux cellSize rest i0 acc).1 k →
        j ∈ acc.1 k ∨ ∃ n e, rest.get? n = some e ∧ j = i0 + n ∧
          isInfiniteType e.geometry = false) ∧
      (∀ j, j ∈ (rebuildAux cellSize rest i0 acc).2 ↔
        j ∈ acc.2 ∨ ∃ n e, rest.get? n = some e ∧ j = i0 + n ∧
          isInfiniteType e.geometry = true)
  | [], i0, acc, hn => by
      refine ⟨hn, fun k j hj => Or.inl hj, fun j => ?_⟩
      simp [rebuildAux]
  | e :: rest, i0, acc, hn => by
      rw [rebuildAux]
      cases hinf : isInfiniteType e.geometry with
      | true =>
        have hstep : rebuildStep cellSize i0 e acc = (acc.1, acc.2 ++ [i0]) := by
          simp [rebuildStep, hinf]
        rw [hstep]
        have ih := rebuildAux_spec cellSize rest (i0 + 1) (acc.1, acc.2 ++ [i0]) hn
        refine ⟨ih.1, ?_, ?_⟩
        · intro k j hj
          rcases ih.2.1 k j hj with hj2 | ⟨n, e2, hget, rfl, hfin⟩
          · exact Or.inl hj2
          · exact Or.inr ⟨n + 1, e2, by simpa using hget, by omega, hfin⟩
        · intro j
          rw [ih.2.2 j]
          constructor
          · rintro (hj | ⟨n, e2, hget, rfl, hinfe⟩)
            · rcases List.mem_append.1 hj with hj2 | hj2
              · exact Or.inl hj2
              · have hji : j = i0 := by simpa using hj2
                exact Or.inr ⟨0, e, by simp, by omega, hinf⟩
            · exact Or.inr ⟨n + 1, e2, by simpa using hget, by omega, hinfe⟩
          · rintro (hj | ⟨n, e2, hget, hje, hinfe⟩)
            · exact Or.inl (List.mem_append_left _ hj)
            · cases n with
              | zero => exact Or.inl (List.mem_append_right _ (by simp [hje]))
              | succ n => exact Or.inr ⟨n, e2, by simpa using hget, by omega, hinfe⟩
      | false =>
        have hstep : rebuildStep cellSize i0 e acc =
            ((entityCellHashes cellSize (computeAABB e)).foldl
              (fun cs h => addToCell cs h i0) acc.1, acc.2) := by
          simp [rebuildStep, hinf]
        rw [hstep]
        have hn2 : ∀ k, (((entityCellHashes cellSize (computeAABB e)).foldl
            (fun cs h => addToCell cs h i0) acc.1) k).Nodup :=
          foldl_addToCell_nodup _ i0 acc.1 hn
        have ih := rebuildAux_spec cellSize rest (i0 + 1)
          ((entityCellHashes cellSize (computeAABB e)).foldl
            (fun cs h => addToCell cs h i0) acc.1, acc.2) hn2
        refine ⟨ih.1, ?_, ?_⟩
        · intro k j hj
          rcases ih.2.1 k j hj with hj2 | ⟨n, e2, hget, rfl, hfin⟩
          · rcases foldl_addToCell_mem _ i0 acc.1 k j hj2 with hj3 | rfl
            · exact Or.inl hj3
            · exact Or.inr ⟨0, e, by simp, by omega, hinf⟩
          · exact Or.inr ⟨n + 1, e2, by simpa using hget, by omega, hfin⟩
        · intro j
          rw [ih.2.2 j]
          constructor
          · rintro (hj | ⟨n, e2, hget, rfl, hinfe⟩)
            · exact Or.inl hj
            · exact Or.inr ⟨n + 1, e2, by simpa using hget, by omega, hinfe⟩
          · rintro (hj | ⟨n, e2, hget, hje, hinfe⟩)
            · exact Or.inl hj
            · cases n with
              | zero =>
                have he2 : e = e2 := by simpa using hget
                rw [← he2] at hinfe
                rw [hinf] at hinfe
                exact absurd hinfe (by simp)
              | succ n => exact Or.inr ⟨n, e2, by simpa using hget, by omega, hinfe⟩

theorem build_cells (entities : List Entity) (cellSize : ℚ) :
    (SpatialGrid.build entities cellSize).cells =
      (rebuildAux cellSize entities 0 (fun _ => [], [])).1 := rfl

theorem build_globals (entities : List Entity) (cellSize : ℚ) :
    (SpatialGrid.build entities cellSize).globalIndices =
      (rebuildAux cellSize entities 0 (fun _ => [], [])).2 := rfl

/-- C8: after `SpatialGrid` construction (and hence after any `rebuild()`,
which recomputes the same structure from scratch), every cell list holds
each entity index at most once, only finite-geometry entities ever enter a
cell list, and every plane / generic-SDF entity index is in the
always-evaluated list returned by `getCandidates` at every query point. -/
theorem C8_grid_invariants (entities : List Entity) (cellSize : ℚ) :
    (∀ h, ((SpatialGrid.build entities cellSize).cells h).Nodup) ∧
    (∀ h i, i ∈ (SpatialGrid.build entities cellSize).cells h →
      ∃ e, entities.get? i = some e ∧ isInfiniteType e.geometry = false) ∧
    (∀ (p : Vec3) (i : ℕ) (e : Entity), entities.get? i = some e →
      isInfiniteType e.geometry = true →
      i ∈ (SpatialGrid.build entities cellSize).getCandidates p) := by
  have hspec := rebuildAux_spec cellSize entities 0 (fun _ => ([] : List ℕ), ([] : List ℕ))
    (fun k => List.nodup_nil)
  refine ⟨?_, ?_, ?_⟩
  · intro h
    rw [build_cells]
    exact hspec.1 h
  · intro h i hi
    rw [build_cells] at hi
    rcases hspec.2.1 h i hi with hin | ⟨n, e, hget, rfl, hfin⟩
    · exact absurd hin (List.not_mem_nil i)
    · exact ⟨e, by simpa using hget, hfin⟩
  · intro p i e hget hinf
    have hglob : i ∈ (SpatialGrid.build entities cellSize).globalIndices := by
      rw [build_globals]
      exact (hspec.2.2 i).2 (Or.inr ⟨i, e, hget, by omega, hinf⟩)
    simp only [SpatialGrid.getCandidates]
    exact List.mem_append_left _ hglob

theorem C8_witness :
    ((SpatialGrid.build [sphereEntity, planeEntity] 2).cells 0).Nodup ∧
    (∃ e, [sphereEntity, planeEntity].get? 0 = some e ∧
      isInfiniteType e.geometry = false) ∧
    1 ∈ (SpatialGrid.build [sphereEntity, planeEntity] 2).getCandidates ⟨0, 0, 0⟩ := by
  have hsph : isInfiniteType sphereEntity.geometry = false := rfl
  have hpl : isInfiniteType planeEntity.geometry = true := rfl
  have hcells : (SpatialGrid.build [sphereEntity, planeEntity] 2).cells 0 = [0] := by
    simp [SpatialGrid.build, rebuildAux, rebuildStep, hsph, hpl,
      sphere_cell_hashes, addToCell]
  refine ⟨(C8_grid_invariants [sphereEntity, planeEntity] 2).1 0,
    (C8_grid_invariants [sphereEntity, planeEntity] 2).2.1 0 0 (by rw [hcells]; simp),
    (C8_grid_invariants [sphereEntity, planeEntity] 2).2.2 ⟨0, 0, 0⟩ 1 planeEntity rfl hpl⟩

/-! ## C10: min-max normalization of a constant feature -/

theorem min?_const (c : ℚ) : ∀ l : List ℚ, (∀ v ∈ l, v = c) → l ≠ [] → l.min? = some c
  | [], _, hne => absurd rfl hne
  | a :: l, h, _ => by
    have ha : a = c := h a (by simp)
    rw [List.min?_cons]
    rcases eq_or_ne l [] with rfl | hl
    · simp [ha]
    · rw [min?_const c l (fun v hv => h v (List.mem_cons_of_mem a hv)) hl]
      simp [ha]

theorem max?_const (c : ℚ) : ∀ l : List ℚ, (∀ v ∈ l, v = c) → l ≠ [] → l.max? = some c
  | [], _, hne => absurd rfl hne
  | a :: l, h, _ => by
    have ha : a = c := h a (by simp)
    rw [List.max?_cons]
    rcases eq_or_ne l [] with rfl | hl
    · simp [ha]
    · rw [max?_const c l (fun v hv => h v (List.mem_cons_of_mem a hv)) hl]
      simp [ha]

/-- C10: when every value of a feature vector equals the same constant, the
min-max range is zero and `normalize` maps every record's feature to 0 (not
0.5 and not the raw value). -/
theorem C10_normalize_constant (values : List ℚ) (c : ℚ) (hne : values ≠ [])
    (hall : ∀ v ∈ values, v = c) :
    normalize values = values.map (fun _ => 0) := by
  have hmin : values.min? = some c := min?_const c values hall hne
  have hmax : values.max? = some c := max?_const c values hall hne
  simp [normalize, hmin, hmax]

/-- Witness for C10 on the constant vector `[3,3,3]` (raw value 3 ≠ 0):
every normalized value is 0. -/
theorem C10_witness :
    ([3, 3, 3] : List ℚ) ≠ [] ∧ normalize [3, 3, 3] = [0, 0, 0] :=
  ⟨by simp,
   by rw [C10_normalize_constant [3, 3, 3] 3 (by simp)
        (by intro v hv; simp at hv; exact hv)]; rfl⟩

/-! ## C4: temporal idempotence of the single-threaded frame loop -/

theorem updFn_same {α : Type} (f : ℕ → α) (i : ℕ) (v : α) : updFn f i v i = v := by
  simp [updFn]

theorem updFn_true_mono (f : ℕ → Bool) (i k : ℕ) (h : f k = true) :
    updFn f i true k = true := by
  unfold updFn
  split
  · rfl
  · exact h

theorem fb_set_dims (fb : FrameBuffer) (x y : ℕ) (c r g b br : ℚ) :
    (fb.set x y c r g b br).width = fb.width ∧ (fb.set x y c r g b br).height = fb.height := by
  cases fb
  exact ⟨rfl, rfl⟩

theorem store_fields (tc : TemporalCache) (x y : ℕ) (d : ℚ) (e : ℤ) (hp n : Vec3) :
    (tc.store x y d e hp n).width = tc.width ∧
    (tc.store x y d e hp n).valid = updFn tc.valid (y * tc.width + x) true := by
  cases tc
  exact ⟨rfl, rfl⟩

theorem storeMiss_fields (tc : TemporalCache) (x y : ℕ) :
    (tc.storeMiss x y).width = tc.width ∧
    (tc.storeMiss x y).valid = updFn tc.valid (y * tc.width + x) true := by
  cases tc
  exact ⟨rfl, rfl⟩

theorem updateCamera_fields (tc : TemporalCache) (p r : Vec3) :
    (tc.updateCamera p r).width = tc.width ∧ (tc.updateCamera p r).valid = tc.valid ∧
    (tc.updateCamera p r).prevCameraPos = p ∧ (tc.updateCamera p r).prevCameraRot = r := by
  cases tc
  exact ⟨rfl, rfl, rfl, rfl⟩

theorem updateCamera_self (tc : TemporalCache) :
    tc.updateCamera tc.prevCameraPos tc.prevCameraRot = tc := by
  cases tc
  rfl

theorem cameraChanged_same (tc : TemporalCache) :
    tc.cameraChanged tc.prevCameraPos tc.prevCameraRot = false := by
  have h : (decide ((0 : ℚ) > 1 / 1000)) = false := by
    rw [decide_eq_false_iff_not]
    norm_num
  simp [TemporalCache.cameraChanged, sub_self, abs_zero, h]

theorem mk_tc_updateCamera (st : RenderState) (p r : Vec3) :
    { st with tc := st.tc.updateCamera p r } = ⟨st.fb, st.tc.updateCamera p r, st.gc, st.traces⟩ := by
  cases st
  rfl

theorem renderState_eta (st : RenderState) :
    (⟨st.fb, st.tc, st.gc, st.traces⟩ : RenderState) = st := by
  cases st
  rfl

theorem renderFrame_split (m : JSMath) (scene : Scene) (world : World) (b : Bool)
    (st0 : RenderState) :
    renderFrameSingleThread m scene world b st0 =
      ⟨(framePixelFold m scene world b st0).fb,
       (framePixelFold m scene world b st0).tc.updateCamera
         scene.camera.position scene.camera.rotation,
       (framePixelFold m scene world b st0).gc,
       (framePixelFold m scene world b st0).traces⟩ := by
  unfold renderFrameSingleThread
  exact mk_tc_updateCamera (framePixelFold m scene world b st0) _ _

theorem framePixelFold_def (m : JSMath) (scene : Scene) (world : World) (b : Bool)
    (st0 : RenderState) :
    framePixelFold m scene world b st0 =
      (pixelList st0.fb.width st0.fb.height).foldl
        (renderPixel m scene world b
          (st0.tc.cameraChanged scene.camera.position scene.camera.rotation)
          (scene.entities.any fun e => e.velocity.isSome || e.angularVelocity.isSome)
          (scene.lights.any fun l => l.flicker.isSome)) st0 := rfl

/-- `fullTracePixel` preserves the buffer dimensions and cache width and sets
the pixel's validity bit (both the hit and the miss branch store). -/
theorem fullTracePixel_fields (m : JSMath) (scene : Scene) (world : World) (x y : ℕ)
    (st : RenderState) :
    (fullTracePixel m scene world x y st).fb.width = st.fb.width ∧
    (fullTracePixel m scene world x y st).fb.height = st.fb.height ∧
    (fullTracePixel m scene world x y st).tc.width = st.tc.width ∧
    (fullTracePixel m scene world x y st).tc.valid =
      updFn st.tc.valid (y * st.tc.width + x) true := by
  rcases hmr : raymarch m (createRay m scene.camera x y st.fb.width st.fb.height) world 64 with
    ⟨position, normal, material, distance, entityIndex⟩ | _
  · simp only [fullTracePixel, hmr]
    exact ⟨(fb_set_dims _ _ _ _ _ _ _ _).1, (fb_set_dims _ _ _ _ _ _ _ _).2,
      (store_fields _ _ _ _ _ _ _).1, (store_fields _ _ _ _ _ _ _).2⟩
  · simp only [fullTracePixel, hmr]
    exact ⟨(fb_set_dims _ _ _ _ _ _ _ _).1, (fb_set_dims _ _ _ _ _ _ _ _).2,
      (storeMiss_fields _ _ _).1, (storeMiss_fields _ _ _).2⟩

/-- Every branch of the per-pixel loop body preserves the buffer dimensions
and cache width, never invalidates a pixel, and leaves its own pixel valid. -/
theorem renderPixel_fields (m : JSMath) (scene : Scene) (world : World)
    (b1 b2 b3 b4 : Bool) (st : RenderState) (xy : ℕ × ℕ) :
    (renderPixel m scene world b1 b2 b3 b4 st xy).fb.width = st.fb.width ∧
    (renderPixel m scene world b1 b2 b3 b4 st xy).fb.height = st.fb.height ∧
    (renderPixel m scene world b1 b2 b3 b4 st xy).tc.width = st.tc.width ∧
    (∀ k, st.tc.valid k = true →
      (renderPixel m scene world b1 b2 b3 b4 st xy).tc.valid k = true) ∧
    (renderPixel m scene world b1 b2 b3 b4 st xy).tc.valid
      (xy.2 * st.tc.width + xy.1) = true := by
  have hfull := fullTracePixel_fields m scene world xy.1 xy.2 st
  have hfullC :
      (fullTracePixel m scene world xy.1 xy.2 st).fb.width = st.fb.width ∧
      (fullTracePixel m scene world xy.1 xy.2 st).fb.height = st.fb.height ∧
      (fullTracePixel m scene world xy.1 xy.2 st).tc.width = st.tc.width ∧
      (∀ k, st.tc.valid k = true →
        (fullTracePixel m scene world xy.1 xy.2 st).tc.valid k = true) ∧
      (fullTracePixel m scene world xy.1 xy.2 st).tc.valid
        (xy.2 * st.tc.width + xy.1) = true :=
    ⟨hfull.1, hfull.2.1, hfull.2.2.1,
     fun k hk => by rw [hfull.2.2.2]; exact updFn_true_mono _ _ _ hk,
     by rw [hfull.2.2.2]; exact updFn_same _ _ _⟩
  simp only [renderPixel]
  split
  · rename_i hA
    have hvalid : st.tc.valid (xy.2 * st.tc.width + xy.1) = true := by
      have hA2 := hA
      simp only [Bool.and_eq_true] at hA2
      simpa [TemporalCache.isValid] using hA2.2
    split
    · split
      · exact ⟨rfl, rfl, rfl, fun k hk => hk, hvalid⟩
      · exact hfullC
    · split
      · split
        · split
          · exact ⟨(fb_set_dims _ _ _ _ _ _ _ _).1, (fb_set_dims _ _ _ _ _ _ _ _).2, rfl,
              fun k hk => hk, hvalid⟩
          · exact ⟨rfl, rfl, rfl, fun k hk => hk, hvalid⟩
        · exact ⟨rfl, rfl, rfl, fun k hk => hk, hvalid⟩
      · exact hfullC
  · exact hfullC

/-- The pixel fold preserves the buffer dimensions and cache width, never
invalidates a pixel, and leaves every visited pixel valid. -/
theorem foldRP_fields (m : JSMath) (scene : Scene) (world : World) (b1 b2 b3 b4 : Bool) :
    ∀ (l : List (ℕ × ℕ)) (st : RenderState),
      ((l.foldl (renderPixel m scene world b1 b2 b3 b4) st).fb.width = st.fb.width ∧
       (l.foldl (renderPixel m scene world b1 b2 b3 b4) st).fb.height = st.fb.height ∧
       (l.foldl (renderPixel m scene world b1 b2 b3 b4) st).tc.width = st.tc.width) ∧
      (∀ k, st.tc.valid k = true →
        (l.foldl (renderPixel m scene world b1 b2 b3 b4) st).tc.valid k = true) ∧
      (∀ xy ∈ l,
        (l.foldl (renderPixel m scene world b1 b2 b3 b4) st).tc.valid
          (xy.2 * st.tc.width + xy.1) = true)
  | [], st => by
      refine ⟨⟨rfl, rfl, rfl⟩, fun k hk => hk, ?_⟩
      intro xy hxy
      exact absurd hxy (List.not_mem_nil xy)
  | p :: l, st => by
      have hp := renderPixel_fields m scene world b1 b2 b3 b4 st p
      have ih := foldRP_fields m scene world b1 b2 b3 b4 l
        (renderPixel m scene world b1 b2 b3 b4 st p)
      rw [List.foldl_cons]
      refine ⟨⟨?_, ?_, ?_⟩, ?_, ?_⟩
      · rw [ih.1.1, hp.1]
      · rw [ih.1.2.1, hp.2.1]
      · rw [ih.1.2.2, hp.2.2.1]
      · intro k hk
        exact ih.2.1 k (hp.2.2.2.1 k hk)
      · intro xy hxy
        rcases List.mem_cons.1 hxy with rfl | hxy2
        · exact ih.2.1 _ hp.2.2.2.2
        · have hmem := ih.2.2 xy hxy2
          rwa [hp.2.2.1] at hmem

/-- With temporal reuse on, an unchanged camera, no moving entities, no
flickering lights, and the pixel valid in the cache, the loop body is the
identity. -/
theorem renderPixel_id (m : JSMath) (scene : Scene) (world : World) (st : RenderState)
    (xy : ℕ × ℕ)
    (hstatic : ∀ e ∈ scene.entities, e.velocity = none ∧ e.angularVelocity = none)
    (hv : st.tc.valid (xy.2 * st.tc.width + xy.1) = true) :
    renderPixel m scene world true false false false st xy = st := by
  simp only [renderPixel]
  rw [if_pos (show (true && !false && st.tc.isValid xy.1 xy.2) = true by
    simp [TemporalCache.isValid, hv])]
  by_cases hE : st.tc.getEntityIndex xy.1 xy.2 = -1
  · rw [if_pos hE]
    simp
  · rw [if_neg hE]
    rcases hent : entityAt scene.entities (st.tc.getEntityIndex xy.1 xy.2) with _ | e
    · simp [hent]
    · have hmem : e ∈ scene.entities := by
        unfold entityAt at hent
        split at hent
        · exact List.get?_mem hent
        · simp at hent
      obtain ⟨hev, hav⟩ := hstatic e hmem
      simp [hent, hev, hav]

theorem foldl_fixed {α β : Type} (f : α → β → α) (s : α) :
    ∀ l : List β, (∀ b ∈ l, f s b = s) → l.foldl f s = s
  | [], _ => rfl
  | b :: l, h => by
      rw [List.foldl_cons, h b (List.mem_cons_self b l)]
      exact foldl_fixed f s l fun b2 hb2 => h b2 (List.mem_cons_of_mem b hb2)

/-- C4: for a static scene (no entity velocities or angular velocities, no
flickering lights), a second consecutive `renderFrameSingleThread` with an
identical camera pose, temporal reuse on and adaptive quality off returns the
first frame's state unchanged — in particular the frame buffer is identical
cell for cell and the trace counter does not advance, so the second frame
performs zero sphere traces — and after the first frame every pixel of the
buffer is valid in the temporal cache. -/
theorem C4_temporal_idempotence (m : JSMath) (scene scene2 : Scene)
    (world world2 : World) (st0 : RenderState)
    (hcam : scene2.camera = scene.camera)
    (hents : scene2.entities = scene.entities)
    (hlights : scene2.lights = scene.lights)
    (hstatic : ∀ e ∈ scene.entities, e.velocity = none ∧ e.angularVelocity = none)
    (hfl : ∀ l ∈ scene.lights, l.flicker = none) :
    renderFrameSingleThread m scene2 world2 true
        (renderFrameSingleThread m scene world true st0) =
      renderFrameSingleThread m scene world true st0 ∧
    ∀ xy ∈ pixelList st0.fb.width st0.fb.height,
      (renderFrameSingleThread m scene world true st0).tc.valid
        (xy.2 * (renderFrameSingleThread m scene world true st0).tc.width + xy.1) = true := by
  have hsplit1 := renderFrame_split m scene world true st0
  have hf1def := framePixelFold_def m scene world true st0
  have hF1 := foldRP_fields m scene world true
    (st0.tc.cameraChanged scene.camera.position scene.camera.rotation)
    (scene.entities.any fun e => e.velocity.isSome || e.angularVelocity.isSome)
    (scene.lights.any fun l => l.flicker.isSome)
    (pixelList st0.fb.width st0.fb.height) st0
  have hF1w : (framePixelFold m scene world true st0).fb.width = st0.fb.width := by
    rw [hf1def]; exact hF1.1.1
  have hF1h : (framePixelFold m scene world true st0).fb.height = st0.fb.height := by
    rw [hf1def]; exact hF1.1.2.1
  have hF1tw : (framePixelFold m scene world true st0).tc.width = st0.tc.width := by
    rw [hf1def]; exact hF1.1.2.2
  have hF1v : ∀ xy ∈ pixelList st0.fb.width st0.fb.height,
      (framePixelFold m scene world true st0).tc.valid (xy.2 * st0.tc.width + xy.1) = true := by
    rw [hf1def]; exact hF1.2.2
  have hs1tc : (renderFrameSingleThread m scene world true st0).tc =
      (framePixelFold m scene world true st0).tc.updateCamera
        scene.camera.position scene.camera.rotation := by
    rw [hsplit1]
  have hs1fb : (renderFrameSingleThread m scene world true st0).fb =
      (framePixelFold m scene world true st0).fb := by
    rw [hsplit1]
  have hs1fbw : (renderFrameSingleThread m scene world true st0).fb.width = st0.fb.width := by
    rw [hs1fb, hF1w]
  have hs1fbh : (renderFrameSingleThread m scene world true st0).fb.height = st0.fb.height := by
    rw [hs1fb, hF1h]
  have hs1tw : (renderFrameSingleThread m scene world true st0).tc.width = st0.tc.width := by
    rw [hs1tc, (updateCamera_fields _ _ _).1, hF1tw]
  have hs1tv : (renderFrameSingleThread m scene world true st0).tc.valid =
      (framePixelFold m scene world true st0).tc.valid := by
    rw [hs1tc, (updateCamera_fields _ _ _).2.1]
  have hpos : (renderFrameSingleThread m scene world true st0).tc.prevCameraPos =
      scene2.camera.position := by
    rw [hs1tc, (updateCamera_fields _ _ _).2.2.1, hcam]
  have hrot : (renderFrameSingleThread m scene world true st0).tc.prevCameraRot =
      scene2.camera.rotation := by
    rw [hs1tc, (updateCamera_fields _ _ _).2.2.2, hcam]
  have hvalid1 : ∀ xy ∈ pixelList st0.fb.width st0.fb.height,
      (renderFrameSingleThread m scene world true st0).tc.valid
        (xy.2 * (renderFrameSingleThread m scene world true st0).tc.width + xy.1) = true := by
    intro xy hxy
    rw [hs1tw, hs1tv]
    exact hF1v xy hxy
  refine ⟨?_, hvalid1⟩
  have hcc2 : (renderFrameSingleThread m scene world true st0).tc.cameraChanged
      scene2.camera.position scene2.camera.rotation = false := by
    rw [← hpos, ← hrot]
    exact cameraChanged_same _
  have ham2 : (scene2.entities.any fun e => e.velocity.isSome || e.angularVelocity.isSome)
      = false := by
    rw [hents, List.any_eq_false]
    intro e he
    obtain ⟨hev, hav⟩ := hstatic e he
    simp [hev, hav]
  have haf2 : (scene2.lights.any fun l => l.flicker.isSome) = false := by
    rw [hlights, List.any_eq_false]
    intro l hl
    simp [hfl l hl]
  have hid : ∀ xy ∈ pixelList
      (renderFrameSingleThread m scene world true st0).fb.width
      (renderFrameSingleThread m scene world true st0).fb.height,
      renderPixel m scene2 world2 true
        ((renderFrameSingleThread m scene world true st0).tc.cameraChanged
          scene2.camera.position scene2.camera.rotation)
        (scene2.entities.any fun e => e.velocity.isSome || e.angularVelocity.isSome)
        (scene2.lights.any fun l => l.flicker.isSome)
        (renderFrameSingleThread m scene world true st0) xy =
      renderFrameSingleThread m scene world true st0 := by
    intro xy hxy
    rw [hcc2, ham2, haf2]
    refine renderPixel_id m scene2 world2 _ xy ?_ ?_
    · rw [hents]; exact hstatic
    · rw [hs1fbw, hs1fbh] at hxy
      rw [hs1tw, hs1tv]
      exact hF1v xy hxy
  have hfold2 : framePixelFold m scene2 world2 true
      (renderFrameSingleThread m scene world true st0) =
      renderFrameSingleThread m scene world true st0 := by
    rw [framePixelFold_def]
    exact foldl_fixed _ _ _ hid
  have hsplit2 := renderFrame_split m scene2 world2 true
    (renderFrameSingleThread m scene world true st0)
  rw [hsplit2, hfold2]
  have hup : (renderFrameSingleThread m scene world true st0).tc.updateCamera
      scene2.camera.position scene2.camera.rotation =
      (renderFrameSingleThread m scene world true st0).tc := by
    rw [← hpos, ← hrot]
    exact updateCamera_self _
  rw [hup]

/-- Witness for C4: two consecutive frames of the empty static scene on a
1×1 buffer coincide, and the single pixel is valid after the first frame. -/
theorem C4_witness :
    renderFrameSingleThread witnessMath emptyScene emptyWorld true
        (renderFrameSingleThread witnessMath emptyScene emptyWorld true initState) =
      renderFrameSingleThread witnessMath emptyScene emptyWorld true initState ∧
    ∀ xy ∈ pixelList initState.fb.width initState.fb.height,
      (renderFrameSingleThread witnessMath emptyScene emptyWorld true initState).tc.valid
        (xy.2 * (renderFrameSingleThread witnessMath emptyScene emptyWorld true
          initState).tc.width + xy.1) = true :=
  C4_temporal_idempotence witnessMath emptyScene emptyScene emptyWorld emptyWorld initState
    rfl rfl rfl (by simp [emptyScene]) (by simp [emptyScene])

end Astral
